import Mathlib

/-!
# A shallow embedding of the Chip-8 emulator core

This file embeds the instruction decoder (`chip8_instruction_set.rs`) and the
execution engine (`chip8.rs`) of the emulator as executable Lean definitions and
proves properties of them.

Modelling conventions:
* `u8` values are `Nat`s kept below 256 by the operations themselves (decode
  always extracts nibbles/bytes) or by well-formedness hypotheses on states;
  Rust's `overflowing_add`/`overflowing_sub`/`shl` are written out as explicit
  `% 256` arithmetic.
* `u16` values (`instruction_pointer`, `address_register`) are `Nat`s; Rust
  release-mode wrapping of `u16` arithmetic is written as explicit `% 65536`.
* Operations that can panic in Rust (`Vec`/array indexing out of bounds,
  `Vec::pop().expect(..)` on an empty vector) return `Option`: `none` is the
  fatal outcome.
* `Vec<Address>` used as the call stack is modelled as a `List Nat` whose head
  is the vector's last element (the top of the stack): `push` is `cons`,
  `pop` takes the head.
* The global thread RNG consulted by the random instruction is modelled by an
  extra parameter `rand` of `execute`/`tick`: the byte the generator would
  yield at that step, universally quantified in theorems.
-/

namespace Chip8Emu

/-- The typed instruction set, mirroring `enum Instruction` in
`chip8_instruction_set.rs` (35 variants). -/
inductive Instruction where
  | ExecSubroutineML (addr : Nat)
  | ClearScreen
  | ReturnFromSubroutine
  | JumpToAddress (addr : Nat)
  | ExecSubroutine (addr : Nat)
  | SkipFollowingIfRegEq (r : Nat) (v : Nat)
  | SkipFollowingIfRegNeq (r : Nat) (v : Nat)
  | SkipFollowingIfRegEqReg (r0 r1 : Nat)
  | StoreToReg (r : Nat) (v : Nat)
  | AddToReg (r : Nat) (v : Nat)
  | MoveValue (r0 r1 : Nat)
  | OrRegister (r0 r1 : Nat)
  | AndRegister (r0 r1 : Nat)
  | XorRegister (r0 r1 : Nat)
  | AddWithCarry (r0 r1 : Nat)
  | SubWithCarry (r0 r1 : Nat)
  | ShiftRight (r0 r1 : Nat)
  | SubWithCarry2 (r0 r1 : Nat)
  | ShiftLeft (r0 r1 : Nat)
  | SkipIfNE (r0 r1 : Nat)
  | StoreAddressToI (addr : Nat)
  | JumpWithOffset (addr : Nat)
  | RandWithMask (r : Nat) (mask : Nat)
  | DrawSprite (r0 r1 : Nat) (len : Nat)
  | SkipIfKeyPressed (r : Nat)
  | SkipIfKeyNotPressed (r : Nat)
  | ReadDelayTimer (r : Nat)
  | WaitForKey (r : Nat)
  | WriteDelayTimer (r : Nat)
  | WriteSoundTimer (r : Nat)
  | IncrementIWithReg (r : Nat)
  | GetSpriteDataAddress (r : Nat)
  | StoreBCD (r : Nat)
  | StoreRegisters (r : Nat)
  | FillRegisters (r : Nat)
deriving DecidableEq, Repr

/-- Source `Instruction::get_address`: 12-bit address operand,
`(b0 & 0x0f) << 8 | b1`. -/
def get_address (b0 b1 : Nat) : Nat := b0 % 16 * 256 + b1

/-- Source `Instruction::get_registers`: register operand pair
`(b0 & 0x0f, b1 >> 4)`. -/
def get_registers (b0 b1 : Nat) : Nat × Nat := (b0 % 16, b1 / 16)

/-- Source `Instruction::decode_0_class_instruction`. -/
def decode_0_class_instruction (b0 b1 : Nat) : Option Instruction :=
  if b0 = 0 then
    if b1 = 0xE0 then some .ClearScreen
    else if b1 = 0xEE then some .ReturnFromSubroutine
    else none
  else if 0x02 ≤ b0 ∧ b0 ≤ 0x0f then
    some (.ExecSubroutineML (get_address b0 b1))
  else none

/-- Source `Instruction::decode_1_class_instruction`. -/
def decode_1_class_instruction (b0 b1 : Nat) : Option Instruction :=
  if 0x12 ≤ b0 ∧ b0 ≤ 0x1F then some (.JumpToAddress (get_address b0 b1))
  else none

/-- Source `Instruction::decode_2_class_instruction`. -/
def decode_2_class_instruction (b0 b1 : Nat) : Option Instruction :=
  if 0x22 ≤ b0 ∧ b0 ≤ 0x2f then some (.ExecSubroutine (get_address b0 b1))
  else none

/-- Source `Instruction::decode_3_class_instruction`. -/
def decode_3_class_instruction (b0 b1 : Nat) : Option Instruction :=
  if 0x30 ≤ b0 ∧ b0 ≤ 0x3f then
    some (.SkipFollowingIfRegEq (get_registers b0 b1).1 b1)
  else none

/-- Source `Instruction::decode_4_class_instruction`. -/
def decode_4_class_instruction (b0 b1 : Nat) : Option Instruction :=
  if 0x40 ≤ b0 ∧ b0 ≤ 0x4f then
    some (.SkipFollowingIfRegNeq (get_registers b0 b1).1 b1)
  else none

/-- Source `Instruction::decode_5_class_instruction`. -/
def decode_5_class_instruction (b0 b1 : Nat) : Option Instruction :=
  let registers := get_registers b0 b1
  if 0x50 ≤ b0 ∧ b0 ≤ 0x5f then
    if b1 % 16 = 0 then some (.SkipFollowingIfRegEqReg registers.1 registers.2)
    else none
  else none

/-- Source `Instruction::decode_6_class_instruction`. -/
def decode_6_class_instruction (b0 b1 : Nat) : Option Instruction :=
  if 0x60 ≤ b0 ∧ b0 ≤ 0x6f then
    some (.StoreToReg (get_registers b0 b1).1 b1)
  else none

/-- Source `Instruction::decode_7_class_instruction`. -/
def decode_7_class_instruction (b0 b1 : Nat) : Option Instruction :=
  if 0x70 ≤ b0 ∧ b0 ≤ 0x7f then
    some (.AddToReg (get_registers b0 b1).1 b1)
  else none

/-- Source `Instruction::decode_8_class_instruction`.  The Rust `match` on the low
nibble of byte 1 is written as an if-chain over the same selector values. -/
def decode_8_class_instruction (b0 b1 : Nat) : Option Instruction :=
  let registers := get_registers b0 b1
  if 0x80 ≤ b0 ∧ b0 ≤ 0x8f then
    if b1 % 16 = 0 then some (.MoveValue registers.1 registers.2)
    else if b1 % 16 = 1 then some (.OrRegister registers.1 registers.2)
    else if b1 % 16 = 2 then some (.AndRegister registers.1 registers.2)
    else if b1 % 16 = 3 then some (.XorRegister registers.1 registers.2)
    else if b1 % 16 = 4 then some (.AddWithCarry registers.1 registers.2)
    else if b1 % 16 = 5 then some (.SubWithCarry registers.1 registers.2)
    else if b1 % 16 = 6 then some (.ShiftRight registers.1 registers.2)
    else if b1 % 16 = 7 then some (.SubWithCarry2 registers.1 registers.2)
    else if b1 % 16 = 0xE then some (.ShiftLeft registers.1 registers.2)
    else none
  else none

/-- Source `Instruction::decode_9_class_instruction`. -/
def decode_9_class_instruction (b0 b1 : Nat) : Option Instruction :=
  if 0x90 ≤ b0 ∧ b0 ≤ 0x9F then
    if b1 % 16 = 0 then
      some (.SkipIfNE (get_registers b0 b1).1 (get_registers b0 b1).2)
    else none
  else none

/-- Source `Instruction::decode_a_class_instruction`. -/
def decode_a_class_instruction (b0 b1 : Nat) : Option Instruction :=
  if 0xA2 ≤ b0 ∧ b0 ≤ 0xAF then some (.StoreAddressToI (get_address b0 b1))
  else none

/-- Source `Instruction::decode_b_class_instruction`. -/
def decode_b_class_instruction (b0 b1 : Nat) : Option Instruction :=
  if 0xB2 ≤ b0 ∧ b0 ≤ 0xBF then some (.JumpWithOffset (get_address b0 b1))
  else none

/-- Source `Instruction::decode_c_class_instruction`. -/
def decode_c_class_instruction (b0 b1 : Nat) : Option Instruction :=
  if 0xC0 ≤ b0 ∧ b0 ≤ 0xCF then
    some (.RandWithMask (get_registers b0 b1).1 b1)
  else none

/-- Source `Instruction::decode_d_class_instruction`. -/
def decode_d_class_instruction (b0 b1 : Nat) : Option Instruction :=
  if 0xD0 ≤ b0 ∧ b0 ≤ 0xDF then
    some (.DrawSprite (get_registers b0 b1).1 (get_registers b0 b1).2 (b1 % 16))
  else none

/-- Source `Instruction::decode_e_class_instruction`. -/
def decode_e_class_instruction (b0 b1 : Nat) : Option Instruction :=
  if 0xE0 ≤ b0 ∧ b0 ≤ 0xEF then
    if b1 = 0x9E then some (.SkipIfKeyPressed (get_registers b0 b1).1)
    else if b1 = 0xA1 then some (.SkipIfKeyNotPressed (get_registers b0 b1).1)
    else none
  else none

/-- Source `Instruction::decode_f_class_instruction`.  The Rust `match` on byte 1 is
written as an if-chain over the same selector values. -/
def decode_f_class_instruction (b0 b1 : Nat) : Option Instruction :=
  if 0xF0 ≤ b0 ∧ b0 ≤ 0xFF then
    let reg := (get_registers b0 b1).1
    if b1 = 0x07 then some (.ReadDelayTimer reg)
    else if b1 = 0x0A then some (.WaitForKey reg)
    else if b1 = 0x15 then some (.WriteDelayTimer reg)
    else if b1 = 0x18 then some (.WriteSoundTimer reg)
    else if b1 = 0x1E then some (.IncrementIWithReg reg)
    else if b1 = 0x29 then some (.GetSpriteDataAddress reg)
    else if b1 = 0x33 then some (.StoreBCD reg)
    else if b1 = 0x55 then some (.StoreRegisters reg)
    else if b1 = 0x65 then some (.FillRegisters reg)
    else none
  else none

/-- Source `Instruction::decode`: dispatch on the high nibble of the first byte
(`instruction.0 >> 4`), written as an if-chain over the 16 class values. -/
def decode (b0 b1 : Nat) : Option Instruction :=
  if b0 / 16 = 0 then decode_0_class_instruction b0 b1
  else if b0 / 16 = 1 then decode_1_class_instruction b0 b1
  else if b0 / 16 = 2 then decode_2_class_instruction b0 b1
  else if b0 / 16 = 3 then decode_3_class_instruction b0 b1
  else if b0 / 16 = 4 then decode_4_class_instruction b0 b1
  else if b0 / 16 = 5 then decode_5_class_instruction b0 b1
  else if b0 / 16 = 6 then decode_6_class_instruction b0 b1
  else if b0 / 16 = 7 then decode_7_class_instruction b0 b1
  else if b0 / 16 = 8 then decode_8_class_instruction b0 b1
  else if b0 / 16 = 9 then decode_9_class_instruction b0 b1
  else if b0 / 16 = 0xA then decode_a_class_instruction b0 b1
  else if b0 / 16 = 0xB then decode_b_class_instruction b0 b1
  else if b0 / 16 = 0xC then decode_c_class_instruction b0 b1
  else if b0 / 16 = 0xD then decode_d_class_instruction b0 b1
  else if b0 / 16 = 0xE then decode_e_class_instruction b0 b1
  else if b0 / 16 = 0xF then decode_f_class_instruction b0 b1
  else none

/-- Modelled from the spec: the documented decode table of §4.1 and §8 — a
16-way dispatch on the opcode class with the documented operand extraction
(12-bit address, register pair, immediate byte), the documented sub-selectors
for classes 0, 5, 8, 9, E, F, and no further range restriction.  This is
the comparison point for the refinement claim about `decode`; it is NOT
translated from the source. -/
def decode_documented (b0 b1 : Nat) : Option Instruction :=
  let addr := b0 % 16 * 256 + b1
  let r0 := b0 % 16
  let r1 := b1 / 16
  if b0 / 16 = 0 then
    if b0 = 0 ∧ b1 = 0xE0 then some .ClearScreen
    else if b0 = 0 ∧ b1 = 0xEE then some .ReturnFromSubroutine
    else some (.ExecSubroutineML addr)
  else if b0 / 16 = 1 then some (.JumpToAddress addr)
  else if b0 / 16 = 2 then some (.ExecSubroutine addr)
  else if b0 / 16 = 3 then some (.SkipFollowingIfRegEq r0 b1)
  else if b0 / 16 = 4 then some (.SkipFollowingIfRegNeq r0 b1)
  else if b0 / 16 = 5 then
    if b1 % 16 = 0 then some (.SkipFollowingIfRegEqReg r0 r1) else none
  else if b0 / 16 = 6 then some (.StoreToReg r0 b1)
  else if b0 / 16 = 7 then some (.AddToReg r0 b1)
  else if b0 / 16 = 8 then
    if b1 % 16 = 0 then some (.MoveValue r0 r1)
    else if b1 % 16 = 1 then some (.OrRegister r0 r1)
    else if b1 % 16 = 2 then some (.AndRegister r0 r1)
    else if b1 % 16 = 3 then some (.XorRegister r0 r1)
    else if b1 % 16 = 4 then some (.AddWithCarry r0 r1)
    else if b1 % 16 = 5 then some (.SubWithCarry r0 r1)
    else if b1 % 16 = 6 then some (.ShiftRight r0 r1)
    else if b1 % 16 = 7 then some (.SubWithCarry2 r0 r1)
    else if b1 % 16 = 0xE then some (.ShiftLeft r0 r1)
    else none
  else if b0 / 16 = 9 then
    if b1 % 16 = 0 then some (.SkipIfNE r0 r1) else none
  else if b0 / 16 = 0xA then some (.StoreAddressToI addr)
  else if b0 / 16 = 0xB then some (.JumpWithOffset addr)
  else if b0 / 16 = 0xC then some (.RandWithMask r0 b1)
  else if b0 / 16 = 0xD then some (.DrawSprite r0 r1 (b1 % 16))
  else if b0 / 16 = 0xE then
    if b1 = 0x9E then some (.SkipIfKeyPressed r0)
    else if b1 = 0xA1 then some (.SkipIfKeyNotPressed r0)
    else none
  else if b0 / 16 = 0xF then
    if b1 = 0x07 then some (.ReadDelayTimer r0)
    else if b1 = 0x0A then some (.WaitForKey r0)
    else if b1 = 0x15 then some (.WriteDelayTimer r0)
    else if b1 = 0x18 then some (.WriteSoundTimer r0)
    else if b1 = 0x1E then some (.IncrementIWithReg r0)
    else if b1 = 0x29 then some (.GetSpriteDataAddress r0)
    else if b1 = 0x33 then some (.StoreBCD r0)
    else if b1 = 0x55 then some (.StoreRegisters r0)
    else if b1 = 0x65 then some (.FillRegisters r0)
    else none
  else none

/-- The opcode classes whose address operand the source decoder additionally
restricts to lie at or above 0x200: the legacy machine-language call (class
0), jump (1), call (2), store-address (A) and jump-with-offset (B). -/
def address_restricted_class (b0 : Nat) : Prop :=
  b0 / 16 = 0 ∨ b0 / 16 = 1 ∨ b0 / 16 = 2 ∨ b0 / 16 = 0xA ∨ b0 / 16 = 0xB

instance (b0 : Nat) : Decidable (address_restricted_class b0) := by
  unfold address_restricted_class; infer_instance

/-- The source decoder agrees with the documented table except on the
address-restricted classes with an address operand below 0x200. -/
def decode_restricted_documented (b0 b1 : Nat) : Option Instruction :=
  if address_restricted_class b0 ∧ b0 % 16 < 2 ∧ ¬(b0 = 0 ∧ (b1 = 0xE0 ∨ b1 = 0xEE))
  then none
  else decode_documented b0 b1

/-! ## The machine state (`struct Chip8` in `chip8.rs`) -/

/-- The pixel value written for an unlit pixel: `SolidSource::from(Color::new(255, 0, 0, 0))`
and `SolidSource::from_unpremultiplied_argb(255, 0, 0, 0)` both denote opaque
black, packed ARGB `0xFF000000`. -/
def blackPixel : Nat := 0xFF000000

/-- The built-in glyph table `SPRITES`: 16 entries of 5 bytes. -/
def SPRITES : List (List Nat) :=
  [[0xf0, 0x90, 0x90, 0x90, 0xf0],
   [0x20, 0x60, 0x20, 0x20, 0x70],
   [0xf0, 0x10, 0xf0, 0x80, 0xf0],
   [0xf0, 0x10, 0xf0, 0x10, 0xf0],
   [0x90, 0x90, 0xf0, 0x10, 0x10],
   [0xf0, 0x80, 0xf0, 0x10, 0xf0],
   [0xf0, 0x80, 0xf0, 0x90, 0xf0],
   [0xf0, 0x10, 0x20, 0x40, 0x40],
   [0xf0, 0x90, 0xf0, 0x90, 0xf0],
   [0xf0, 0x90, 0xf0, 0x10, 0xf0],
   [0xf0, 0x90, 0xf0, 0x90, 0x90],
   [0xe0, 0x90, 0xe0, 0x90, 0xe0],
   [0xf0, 0x80, 0x80, 0x80, 0xf0],
   [0xe0, 0x90, 0x90, 0x90, 0xe0],
   [0xf0, 0x80, 0xf0, 0x80, 0xf0],
   [0xf0, 0x80, 0xf0, 0x80, 0x80]]

/-- Source `SPRITES.iter().flatten()`: the 80 glyph bytes in order. -/
def sprites_flat : List Nat := SPRITES.flatten

/-- The machine state, mirroring `struct Chip8`.  The display is the raqote
draw target's pixel data (row-major packed 32-bit colors); the keymap is host
input plumbing and carries no machine semantics, so it is not part of the
embedded state.  The call stack `Vec<Address>` is a `List Nat` whose head is
the vector's last element (its top). -/
structure Chip8 where
  display : List Nat
  display_color : Nat
  display_scale : Nat
  memory : List Nat
  stack_memory : List Nat
  instruction_pointer : Nat
  registers : List Nat
  keys : List Bool
  address_register : Nat
  delay_timer : Nat
  sound_timer : Nat
deriving DecidableEq, Repr

/-- Indexed assignment `l[i] = v` on a Rust `Vec`/array: out of bounds is a
fatal runtime fault, hence `none`. -/
def vec_write (l : List Nat) (i v : Nat) : Option (List Nat) :=
  if i < l.length then some (l.set i v) else none

/-- A run of indexed assignments `l[base + k] = vals[k]` for `k` ascending,
as performed by the `enumerate().for_each(..)` loops in the source. -/
def write_slice (l : List Nat) (vals : List Nat) (base : Nat) : Option (List Nat) :=
  match vals with
  | [] => some l
  | v :: rest => do
    let l' ← vec_write l base v
    write_slice l' rest (base + 1)

/-- Indexed reads `l[a], l[a+1], ..., l[e-1]`, as performed by
`(a..e).map(|address| self.memory[address as usize])`; an empty range (Rust
`a..e` with `e ≤ a`) reads nothing. -/
def read_range (l : List Nat) (a e : Nat) : Option (List Nat) :=
  if _h : a < e then do
    let v ← l[a]?
    let rest ← read_range l (a + 1) e
    pure (v :: rest)
  else some []
termination_by e - a

/-- Source `keys.iter().enumerate().filter(|(key, x)| **x).map(|(key, _)| key)` and
then `.first()`: the lowest index of a pressed key, if any. -/
def first_pressed (keys : List Bool) : Option Nat :=
  (((List.enumFrom 0 keys).filter fun p => p.2).map fun p => p.1).head?

/-- Map with the element index, used to model writes into the pixel buffer. -/
def map_with_index (f : Nat → Nat → Nat) : Nat → List Nat → List Nat
  | _, [] => []
  | i, p :: rest => f i p :: map_with_index f (i + 1) rest

/-- raqote `DrawTarget::fill_rect(x, y, w, h, color)` on a row-major pixel
buffer of the given width, clipped to the buffer (the coordinates passed by
the emulator are small integers, exactly representable in `f32`). -/
def fill_rect (d : List Nat) (width x y w h color : Nat) : List Nat :=
  map_with_index
    (fun i p =>
      if x ≤ i % width ∧ i % width < x + w ∧ y ≤ i / width ∧ i / width < y + h
      then color else p)
    0 d

/-- The inner `while column_off < 8` loop of the draw-sprite handler: draw the
8 bits of one sprite row, most significant first, at row `y` (already wrapped),
advancing `column_off` and shifting `row_bits` left each iteration.
`x + column_off` is a `u8` addition (release-mode wrap). -/
def draw_columns (width scale color x y : Nat) (row_bits column_off : Nat)
    (d : List Nat) : Nat → List Nat
  | 0 => d
  | count + 1 =>
    let c := if row_bits / 128 = 1 then color else blackPixel
    let d' := fill_rect d width (((x + column_off) % 256) * scale) (y * scale)
      scale scale c
    draw_columns width scale color x y (row_bits * 2 % 256) (column_off + 1) d' count

/-- The outer `for (row_num, row) in sprite_data` loop of the draw-sprite
handler; the row coordinate is `y.overflowing_add(row_num as u8).0`. -/
def draw_rows (width scale color x y : Nat) (rows : List Nat) (row_num : Nat)
    (d : List Nat) : List Nat :=
  match rows with
  | [] => d
  | r :: rest =>
    let d' := draw_columns width scale color x ((y + row_num % 256) % 256) r 0 d 8
    draw_rows width scale color x y rest (row_num + 1) d'

/-! ## The execution engine (`impl Chip8` in `chip8.rs`) -/

/-- Source `Chip8::new(memory, stack_memory, display_scale, display_color, keymap)`.
Note `stack_memory: vec![0; stack_memory]` really fills the call stack with
`stack_memory` zero entries; the raqote draw target starts zeroed. -/
def chip8_new (memory stack_memory display_scale display_color : Nat) : Chip8 where
  display := List.replicate (64 * display_scale * (32 * display_scale)) 0
  display_color := display_color
  display_scale := display_scale
  memory := List.replicate memory 0
  stack_memory := List.replicate stack_memory 0
  instruction_pointer := 0x200
  registers := List.replicate 16 0
  keys := List.replicate 16 false
  address_register := 0
  delay_timer := 0
  sound_timer := 0

/-- Source `Chip8::get_instruction`: the byte pair at an address. -/
def get_instruction (s : Chip8) (address : Nat) : Option (Nat × Nat) := do
  let b0 ← s.memory[address]?
  let b1 ← s.memory[address + 1]?
  pure (b0, b1)

/-- Source `Chip8::load`.  The source's nested loop writes the whole program at
offset 0x200 once per program byte; every pass writes the same values at the
same indices, so the net effect is a single pass (and no pass at all for an
empty program).  Registers, keys and the call stack are not touched. -/
def load (program : List Nat) (s : Chip8) : Option Chip8 := do
  let zeroed := List.replicate s.memory.length 0
  let mem1 ← if program.isEmpty then some zeroed else write_slice zeroed program 0x200
  let mem2 ← write_slice mem1 sprites_flat 0
  pure { s with
    memory := mem2
    address_register := 0
    instruction_pointer := 0x200
    delay_timer := 0
    sound_timer := 0
    display := s.display.map fun _ => blackPixel }

/-- Source `Chip8::decrement_time`: `delay_timer.checked_sub(1).unwrap_or(0)` is
exactly truncated subtraction; the sound timer is not touched. -/
def decrement_time (s : Chip8) : Chip8 :=
  { s with delay_timer := s.delay_timer - 1 }

/-- Source `self.instruction_pointer += 2` (u16, release-mode wrap). -/
def ip_plus_2 (s : Chip8) : Chip8 :=
  { s with instruction_pointer := (s.instruction_pointer + 2) % 65536 }

/-- Source `self.instruction_pointer -= 2` (u16, release-mode wrap). -/
def ip_minus_2 (s : Chip8) : Chip8 :=
  { s with instruction_pointer := (s.instruction_pointer + 65534) % 65536 }

/-- Write a register: `self.registers[i] = v` on the `[u8; 16]` array. -/
def set_reg (s : Chip8) (i v : Nat) : Option Chip8 := do
  let rs ← vec_write s.registers i v
  pure { s with registers := rs }

/-- Source `Chip8::execute`.  `rand` is the byte the global thread RNG yields if this
instruction consults it.  `none` models a fatal runtime fault (out-of-bounds
indexing, or popping an empty vector through `.expect(..)`). -/
def execute (rand : Nat) (instruction : Instruction) (s : Chip8) : Option Chip8 :=
  match instruction with
  | .ExecSubroutineML _ => some s
  | .ClearScreen => some { s with display := s.display.map fun _ => blackPixel }
  | .ReturnFromSubroutine =>
    match s.stack_memory with
    | [] => none
    | top :: rest => some { s with instruction_pointer := top, stack_memory := rest }
  | .JumpToAddress addr =>
    some (ip_minus_2 { s with instruction_pointer := addr % 65536 })
  | .ExecSubroutine addr =>
    some (ip_minus_2 { s with
      stack_memory := s.instruction_pointer :: s.stack_memory
      instruction_pointer := addr % 65536 })
  | .SkipFollowingIfRegEq r v => do
    let a ← s.registers[r]?
    pure (if a = v then ip_plus_2 s else s)
  | .SkipFollowingIfRegNeq r v => do
    let a ← s.registers[r]?
    pure (if a ≠ v then ip_plus_2 s else s)
  | .SkipFollowingIfRegEqReg r0 r1 => do
    let a ← s.registers[r0]?
    let b ← s.registers[r1]?
    pure (if a = b then ip_plus_2 s else s)
  | .StoreToReg r v => set_reg s r v
  | .AddToReg r v => do
    let a ← s.registers[r]?
    set_reg s r ((a + v) % 256)
  | .MoveValue r0 r1 => do
    let b ← s.registers[r1]?
    set_reg s r0 b
  | .OrRegister r0 r1 => do
    let a ← s.registers[r0]?
    let b ← s.registers[r1]?
    set_reg s r0 (a ||| b)
  | .AndRegister r0 r1 => do
    let a ← s.registers[r0]?
    let b ← s.registers[r1]?
    set_reg s r0 (a &&& b)
  | .XorRegister r0 r1 => do
    let a ← s.registers[r0]?
    let b ← s.registers[r1]?
    set_reg s r0 (a ^^^ b)
  | .AddWithCarry r0 r1 => do
    let a ← s.registers[r0]?
    let b ← s.registers[r1]?
    let s1 ← set_reg s r0 ((a + b) % 256)
    -- overflowing_add on u8 overflows exactly when the true sum reaches 256
    set_reg s1 0x0F (if 256 ≤ a + b then 1 else 0)
  | .SubWithCarry r0 r1 => do
    let a ← s.registers[r0]?
    let b ← s.registers[r1]?
    let s1 ← set_reg s r0 ((a + 256 - b) % 256)
    -- overflowing_sub on u8 overflows (borrows) exactly when b exceeds a
    set_reg s1 0x0F (if a < b then 0 else 1)
  | .ShiftRight r0 r1 => do
    let b ← s.registers[r1]?
    let lsb := b % 2
    let s1 ← set_reg s r0 (b / 2)
    set_reg s1 0xF lsb
  | .SubWithCarry2 r0 r1 => do
    let a ← s.registers[r0]?
    let b ← s.registers[r1]?
    let s1 ← set_reg s r0 ((b + 256 - a) % 256)
    set_reg s1 0xF (if b < a then 0 else 1)
  | .ShiftLeft r0 r1 => do
    let b ← s.registers[r1]?
    let msb := b / 128
    let s1 ← set_reg s r0 (b * 2 % 256)
    set_reg s1 0xF msb
  | .SkipIfNE r0 r1 => do
    let a ← s.registers[r0]?
    let b ← s.registers[r1]?
    pure (if a ≠ b then ip_plus_2 s else s)
  | .StoreAddressToI addr => some { s with address_register := addr % 65536 }
  | .JumpWithOffset addr => do
    let r0 ← s.registers[0]?
    pure (ip_minus_2 { s with instruction_pointer := (addr + r0) % 65536 })
  | .RandWithMask r mask => set_reg s r ((rand % 256) &&& mask)
  | .DrawSprite r0 r1 len => do
    let x ← s.registers[r0]?
    let y ← s.registers[r1]?
    let sprite_address := s.address_register
    -- `sprite_address + len as u16` is a u16 addition (release-mode wrap)
    let sprite_data ← read_range s.memory sprite_address ((sprite_address + len) % 65536)
    pure { s with
      display := draw_rows (64 * s.display_scale) s.display_scale s.display_color
        x y sprite_data 0 s.display }
  | .SkipIfKeyPressed r => do
    let v ← s.registers[r]?
    let pressed ← s.keys[v]?
    pure (if pressed then ip_plus_2 s else s)
  | .SkipIfKeyNotPressed r => do
    let v ← s.registers[r]?
    let pressed ← s.keys[v]?
    pure (if !pressed then ip_plus_2 s else s)
  | .ReadDelayTimer r => set_reg s r s.delay_timer
  | .WaitForKey r =>
    match first_pressed s.keys with
    | some key => set_reg s r key
    | none => some (ip_minus_2 s)
  | .WriteDelayTimer r => do
    let v ← s.registers[r]?
    pure { s with delay_timer := v }
  | .WriteSoundTimer r => do
    let v ← s.registers[r]?
    pure { s with sound_timer := v }
  | .IncrementIWithReg r => do
    let v ← s.registers[r]?
    pure { s with address_register := (s.address_register + v) % 65536 }
  | .GetSpriteDataAddress r => do
    let sprite_num ← s.registers[r]?
    pure { s with address_register := sprite_num * 5 }
  | .StoreBCD r => do
    let v ← s.registers[r]?
    -- digits hundreds-first, written at I, I+1, I+2
    let mem ← write_slice s.memory [v / 100 % 10, v / 10 % 10, v % 10] s.address_register
    pure { s with memory := mem }
  | .StoreRegisters r =>
    -- the slice `registers[0..=r]` is itself a fatal fault when r ≥ 16
    if r < s.registers.length then do
      let mem ← write_slice s.memory (s.registers.take (r + 1)) s.address_register
      pure { s with
        memory := mem
        address_register := (s.address_register + r + 1) % 65536 }
    else none
  | .FillRegisters r =>
    if r < s.registers.length then do
      let vals ← read_range s.memory s.address_register (s.address_register + (r + 1))
      pure { s with
        registers := vals ++ s.registers.drop (r + 1)
        address_register := (s.address_register + r + 1) % 65536 }
    else none

/-- Source `Chip8::tick`: fetch, decode (a decode failure is logged and executes
nothing), execute, then unconditionally advance the pointer by 2. -/
def tick (rand : Nat) (s : Chip8) : Option Chip8 := do
  let to_execute ← get_instruction s s.instruction_pointer
  let s' ← match decode to_execute.1 to_execute.2 with
    | none => some s
    | some instruction => execute rand instruction s
  pure (ip_plus_2 s')

/-- Source `n` consecutive host-driven `tick` calls. -/
def tick_n (rand : Nat) : Nat → Chip8 → Option Chip8
  | 0, s => some s
  | n + 1, s => do tick_n rand n (← tick rand s)

/-! ## Step classification helpers used to state the pointer-advance claim -/

/-- Instructions whose handler assigns the instruction pointer directly:
jump, call, return and jump-with-offset. -/
def sets_pointer : Instruction → Bool
  | .JumpToAddress _ | .ExecSubroutine _ | .ReturnFromSubroutine
  | .JumpWithOffset _ => true
  | _ => false

/-- A conditional-skip instruction whose condition holds in the given state. -/
def skip_taken (s : Chip8) : Instruction → Bool
  | .SkipFollowingIfRegEq r v => s.registers.getD r 0 == v
  | .SkipFollowingIfRegNeq r v => s.registers.getD r 0 != v
  | .SkipFollowingIfRegEqReg r0 r1 => s.registers.getD r0 0 == s.registers.getD r1 0
  | .SkipIfNE r0 r1 => s.registers.getD r0 0 != s.registers.getD r1 0
  | .SkipIfKeyPressed r => s.keys.getD (s.registers.getD r 0) false
  | .SkipIfKeyNotPressed r => !(s.keys.getD (s.registers.getD r 0) false)
  | _ => false

/-- A wait-for-key instruction spinning because no keypad flag is set. -/
def wait_stalled (s : Chip8) : Instruction → Bool
  | .WaitForKey _ => (first_pressed s.keys).isNone
  | _ => false

/-! ## Concrete states used as probe inputs -/

/-- A minimal machine state: empty display and memory, zeroed registers,
all keys released, empty call stack. -/
def base_state : Chip8 where
  display := []
  display_color := 0
  display_scale := 0
  memory := []
  stack_memory := []
  instruction_pointer := 0
  registers := List.replicate 16 0
  keys := List.replicate 16 false
  address_register := 0
  delay_timer := 0
  sound_timer := 0

/-- A dirtied machine: register 0 holds 7, one stacked address, nonzero
timers, a lit pixel, and 80 bytes of memory. -/
def c1_probe_state : Chip8 :=
  { base_state with
    memory := List.replicate 80 0
    registers := (List.replicate 16 0).set 0 7
    stack_memory := [0x123]
    display := [5]
    delay_timer := 3
    sound_timer := 4
    address_register := 9 }

/-- Current instruction `0xF00A` (wait-for-key into register 0), no key
pressed. -/
def c3_wait_state : Chip8 := { base_state with memory := [0xF0, 0x0A] }

/-- Current instruction `0x1234` (jump to 0x234). -/
def c3_jump_state : Chip8 := { base_state with memory := [0x12, 0x34] }

/-- The state after stepping `c3_jump_state` once. -/
def c3_jump_result : Chip8 := { c3_jump_state with instruction_pointer := 0x234 }

/-- Delay timer 7, sound timer 5. -/
def c5_probe_state : Chip8 := { base_state with delay_timer := 7, sound_timer := 5 }

/-- Current instruction `0xF30A` (wait-for-key into register 3), no key
pressed. -/
def c7_nokey_state : Chip8 := { base_state with memory := [0xF3, 0x0A] }

/-- Same with keypad flag 0x5 set. -/
def c7_key_state : Chip8 :=
  { c7_nokey_state with keys := (List.replicate 16 false).set 5 true }

/-- Registers 2 and 7 hold 0xFF and 0x01. -/
def c8_add_state : Chip8 :=
  { base_state with registers := ((List.replicate 16 0).set 2 0xFF).set 7 0x01 }

/-- Registers 2 and 7 hold 0x01 and 0x02. -/
def c8_sub_state : Chip8 :=
  { base_state with registers := ((List.replicate 16 0).set 2 0x01).set 7 0x02 }

/-- Registers 0..=3 hold 10, 20, 30, 40; address register 8; 16 memory
bytes. -/
def c9_probe_state : Chip8 :=
  { base_state with
    memory := List.replicate 16 0
    registers := ((((List.replicate 16 0).set 0 10).set 1 20).set 2 30).set 3 40
    address_register := 8 }

/-- Register 4 holds 0x20, beyond the keypad range. -/
def c10_oob_state : Chip8 :=
  { base_state with registers := (List.replicate 16 0).set 4 0x20 }

/-- Register 4 holds 0x0C and keypad flag 0xC is set. -/
def c10_ok_state : Chip8 :=
  { base_state with
    registers := (List.replicate 16 0).set 4 0x0C
    keys := (List.replicate 16 false).set 12 true }

/-! ## Infrastructure lemmas on the list helpers -/

theorem vec_write_spec (l : List Nat) (i v : Nat) (h : i < l.length) :
    vec_write l i v = some (l.set i v) := by
  simp [vec_write, h]

theorem write_slice_spec (vals : List Nat) : ∀ (l : List Nat) (base : Nat),
    base + vals.length ≤ l.length →
    ∃ l', write_slice l vals base = some l' ∧ l'.length = l.length ∧
      ∀ i, l'[i]? = if base ≤ i ∧ i < base + vals.length then vals[i - base]? else l[i]? := by
  induction vals with
  | nil =>
    intro l base _
    exact ⟨l, rfl, rfl, fun i => by rw [if_neg (by simp only [List.length_nil]; omega)]⟩
  | cons v rest ih =>
    intro l base h
    have hb : base < l.length := by simp at h; omega
    obtain ⟨l', hl', hlen, hget⟩ := ih (l.set base v) (base + 1) (by simp at h ⊢; omega)
    refine ⟨l', ?_, by rw [hlen]; simp, ?_⟩
    · simp [write_slice, vec_write_spec l base v hb, hl']
    · intro i
      rw [hget i]
      by_cases h1 : base + 1 ≤ i ∧ i < base + 1 + rest.length
      · rw [if_pos h1, if_pos (by simp only [List.length_cons]; omega)]
        rw [show i - base = (i - (base + 1)) + 1 by omega]
        simp
      · rw [if_neg h1]
        by_cases h2 : base ≤ i ∧ i < base + (v :: rest).length
        · have hib : i = base := by simp only [List.length_cons] at h2; omega
          subst hib
          rw [if_pos (by simp only [List.length_cons]; omega), List.getElem?_set_self hb]
          simp
        · rw [if_neg h2, List.getElem?_set_ne (by simp only [List.length_cons] at h2; omega)]

theorem read_range_spec : ∀ (n : Nat) (l : List Nat) (a e : Nat), e - a ≤ n →
    e ≤ l.length →
    ∃ vals, read_range l a e = some vals ∧ vals.length = e - a ∧
      ∀ k, k < e - a → vals[k]? = l[a + k]? := by
  intro n
  induction n with
  | zero =>
    intro l a e hn _
    refine ⟨[], ?_, by simp only [List.length_nil]; omega, fun k hk => by omega⟩
    unfold read_range
    rw [dif_neg (by omega)]
  | succ m ih =>
    intro l a e hn he
    by_cases ha : a < e
    · have hal : a < l.length := by omega
      cases hl : l[a]? with
      | none => exact absurd (List.getElem?_eq_none_iff.mp hl) (by omega)
      | some v =>
        obtain ⟨vals, hvals, hlen, hget⟩ := ih l (a + 1) e (by omega) he
        refine ⟨v :: vals, ?_, by simp [hlen]; omega, ?_⟩
        · unfold read_range
          rw [dif_pos ha]
          simp [hl, hvals]
        · intro k hk
          cases k with
          | zero => simpa using hl.symm
          | succ k' =>
            simp only [List.getElem?_cons_succ]
            rw [hget k' (by omega), show a + (k' + 1) = (a + 1) + k' by omega]
    · refine ⟨[], ?_, by simp only [List.length_nil]; omega, fun k hk => by omega⟩
      unfold read_range
      rw [dif_neg ha]

/-- Membership in `l[i]?` form for getElem with a length hypothesis. -/
theorem getElem?_eq_some_getD (l : List Nat) (i : Nat) (h : i < l.length) :
    l[i]? = some (l.getD i 0) := by
  rw [List.getD_eq_getElem?_getD]
  cases hl : l[i]? with
  | none => exact absurd (List.getElem?_eq_none_iff.mp hl) (by omega)
  | some v => rfl

/-- Same, for a list of booleans. -/
theorem getElem?_eq_some_getD_bool (l : List Bool) (i : Nat) (h : i < l.length) :
    l[i]? = some (l.getD i false) := by
  rw [List.getD_eq_getElem?_getD]
  cases hl : l[i]? with
  | none => exact absurd (List.getElem?_eq_none_iff.mp hl) (by omega)
  | some v => rfl

/-! ## The first-pressed-key scan -/

theorem first_pressed_nil : first_pressed [] = none := rfl

theorem fp_aux_cons (n : Nat) (b : Bool) (ks : List Bool) :
    (((List.enumFrom n (b :: ks)).filter fun p => p.2).map fun p => p.1).head? =
      if b then some n
      else (((List.enumFrom (n + 1) ks).filter fun p => p.2).map fun p => p.1).head? := by
  cases b <;> simp [List.enumFrom, List.filter]

theorem fp_aux_shift (ks : List Bool) : ∀ n : Nat,
    (((List.enumFrom n ks).filter fun p => p.2).map fun p => p.1).head? =
      ((((List.enumFrom 0 ks).filter fun p => p.2).map fun p => p.1).head?).map (· + n) := by
  induction ks with
  | nil => intro n; simp [List.enumFrom]
  | cons b rest ih =>
    intro n
    rw [fp_aux_cons, fp_aux_cons]
    cases b with
    | true => simp
    | false =>
      simp only [if_false, Bool.false_eq_true]
      rw [ih (n + 1), ih 1, Option.map_map]
      congr 1
      funext k
      simp [Function.comp]
      omega

theorem first_pressed_cons (b : Bool) (ks : List Bool) :
    first_pressed (b :: ks) = if b then some 0 else (first_pressed ks).map (· + 1) := by
  unfold first_pressed
  rw [fp_aux_cons]
  cases b with
  | true => rfl
  | false => simp only [if_false, Bool.false_eq_true]; rw [fp_aux_shift]

/-- A successful scan returns the lowest pressed index. -/
theorem first_pressed_some_spec : ∀ (ks : List Bool) (k : Nat),
    first_pressed ks = some k →
    ks[k]? = some true ∧ ∀ j, j < k → ks[j]? = some false := by
  intro ks
  induction ks with
  | nil => intro k h; simp [first_pressed_nil] at h
  | cons b rest ih =>
    intro k h
    rw [first_pressed_cons] at h
    cases b with
    | true =>
      simp at h
      subst h
      exact ⟨by simp, fun j hj => by omega⟩
    | false =>
      simp only [if_false, Bool.false_eq_true, Option.map_eq_some'] at h
      obtain ⟨k', hk', rfl⟩ := h
      obtain ⟨h1, h2⟩ := ih k' hk'
      refine ⟨by simpa using h1, fun j hj => ?_⟩
      cases j with
      | zero => simp
      | succ j' => simpa using h2 j' (by omega)

/-- The scan fails exactly when no keypad flag is set. -/
theorem first_pressed_eq_none_iff (ks : List Bool) :
    first_pressed ks = none ↔ ∀ b ∈ ks, b = false := by
  induction ks with
  | nil => simp [first_pressed_nil]
  | cons b rest ih =>
    rw [first_pressed_cons]
    cases b <;> simp [ih]

/-! ## Decode versus the documented instruction table, class by class -/

theorem decode_refine_class_0 (b0 b1 : Nat) (h : b0 / 16 = 0) :
    decode b0 b1 = decode_restricted_documented b0 b1 := by
  simp only [decode_restricted_documented, decode, decode_documented,
    address_restricted_class, h]
  norm_num
  simp only [decode_0_class_instruction, get_address, get_registers]
  split_ifs <;> first | rfl | omega

theorem decode_refine_class_1 (b0 b1 : Nat) (h : b0 / 16 = 1) :
    decode b0 b1 = decode_restricted_documented b0 b1 := by
  simp only [decode_restricted_documented, decode, decode_documented,
    address_restricted_class, h]
  norm_num
  simp only [decode_1_class_instruction, get_address, get_registers]
  split_ifs <;> first | rfl | omega

theorem decode_refine_class_2 (b0 b1 : Nat) (h : b0 / 16 = 2) :
    decode b0 b1 = decode_restricted_documented b0 b1 := by
  simp only [decode_restricted_documented, decode, decode_documented,
    address_restricted_class, h]
  norm_num
  simp only [decode_2_class_instruction, get_address, get_registers]
  split_ifs <;> first | rfl | omega

theorem decode_refine_class_3 (b0 b1 : Nat) (h : b0 / 16 = 3) :
    decode b0 b1 = decode_restricted_documented b0 b1 := by
  simp only [decode_restricted_documented, decode, decode_documented,
    address_restricted_class, h]
  norm_num
  simp only [decode_3_class_instruction, get_address, get_registers]
  split_ifs <;> first | rfl | omega

theorem decode_refine_class_4 (b0 b1 : Nat) (h : b0 / 16 = 4) :
    decode b0 b1 = decode_restricted_documented b0 b1 := by
  simp only [decode_restricted_documented, decode, decode_documented,
    address_restricted_class, h]
  norm_num
  simp only [decode_4_class_instruction, get_address, get_registers]
  split_ifs <;> first | rfl | omega

theorem decode_refine_class_5 (b0 b1 : Nat) (h : b0 / 16 = 5) :
    decode b0 b1 = decode_restricted_documented b0 b1 := by
  simp only [decode_restricted_documented, decode, decode_documented,
    address_restricted_class, h]
  norm_num
  simp only [decode_5_class_instruction, get_address, get_registers]
  split_ifs <;> first | rfl | omega

theorem decode_refine_class_6 (b0 b1 : Nat) (h : b0 / 16 = 6) :
    decode b0 b1 = decode_restricted_documented b0 b1 := by
  simp only [decode_restricted_documented, decode, decode_documented,
    address_restricted_class, h]
  norm_num
  simp only [decode_6_class_instruction, get_address, get_registers]
  split_ifs <;> first | rfl | omega

theorem decode_refine_class_7 (b0 b1 : Nat) (h : b0 / 16 = 7) :
    decode b0 b1 = decode_restricted_documented b0 b1 := by
  simp only [decode_restricted_documented, decode, decode_documented,
    address_restricted_class, h]
  norm_num
  simp only [decode_7_class_instruction, get_address, get_registers]
  split_ifs <;> first | rfl | omega

set_option maxHeartbeats 1600000 in
theorem decode_refine_class_8 (b0 b1 : Nat) (h : b0 / 16 = 8) :
    decode b0 b1 = decode_restricted_documented b0 b1 := by
  simp only [decode_restricted_documented, decode, decode_documented,
    address_restricted_class, h]
  norm_num
  simp only [decode_8_class_instruction, get_address, get_registers]
  split_ifs <;> first | rfl | omega

theorem decode_refine_class_9 (b0 b1 : Nat) (h : b0 / 16 = 9) :
    decode b0 b1 = decode_restricted_documented b0 b1 := by
  simp only [decode_restricted_documented, decode, decode_documented,
    address_restricted_class, h]
  norm_num
  simp only [decode_9_class_instruction, get_address, get_registers]
  split_ifs <;> first | rfl | omega

theorem decode_refine_class_a (b0 b1 : Nat) (h : b0 / 16 = 0xA) :
    decode b0 b1 = decode_restricted_documented b0 b1 := by
  simp only [decode_restricted_documented, decode, decode_documented,
    address_restricted_class, h]
  norm_num
  simp only [decode_a_class_instruction, get_address, get_registers]
  split_ifs <;> first | rfl | omega

theorem decode_refine_class_b (b0 b1 : Nat) (h : b0 / 16 = 0xB) :
    decode b0 b1 = decode_restricted_documented b0 b1 := by
  simp only [decode_restricted_documented, decode, decode_documented,
    address_restricted_class, h]
  norm_num
  simp only [decode_b_class_instruction, get_address, get_registers]
  split_ifs <;> first | rfl | omega

theorem decode_refine_class_c (b0 b1 : Nat) (h : b0 / 16 = 0xC) :
    decode b0 b1 = decode_restricted_documented b0 b1 := by
  simp only [decode_restricted_documented, decode, decode_documented,
    address_restricted_class, h]
  norm_num
  simp only [decode_c_class_instruction, get_address, get_registers]
  split_ifs <;> first | rfl | omega

theorem decode_refine_class_d (b0 b1 : Nat) (h : b0 / 16 = 0xD) :
    decode b0 b1 = decode_restricted_documented b0 b1 := by
  simp only [decode_restricted_documented, decode, decode_documented,
    address_restricted_class, h]
  norm_num
  simp only [decode_d_class_instruction, get_address, get_registers]
  split_ifs <;> first | rfl | omega

theorem decode_refine_class_e (b0 b1 : Nat) (h : b0 / 16 = 0xE) :
    decode b0 b1 = decode_restricted_documented b0 b1 := by
  simp only [decode_restricted_documented, decode, decode_documented,
    address_restricted_class, h]
  norm_num
  simp only [decode_e_class_instruction, get_address, get_registers]
  split_ifs <;> first | rfl | omega

set_option maxHeartbeats 1600000 in
theorem decode_refine_class_f (b0 b1 : Nat) (h : b0 / 16 = 0xF) :
    decode b0 b1 = decode_restricted_documented b0 b1 := by
  simp only [decode_restricted_documented, decode, decode_documented,
    address_restricted_class, h]
  norm_num
  simp only [decode_f_class_instruction, get_address, get_registers]
  split_ifs <;> first | rfl | omega

set_option maxHeartbeats 1600000 in
theorem decode_refine_tail (b0 b1 : Nat) (h : 16 ≤ b0 / 16) :
    decode b0 b1 = decode_restricted_documented b0 b1 := by
  have h0 : b0 / 16 ≠ 0 := by omega
  have h1 : b0 / 16 ≠ 1 := by omega
  have h2 : b0 / 16 ≠ 2 := by omega
  have h3 : b0 / 16 ≠ 3 := by omega
  have h4 : b0 / 16 ≠ 4 := by omega
  have h5 : b0 / 16 ≠ 5 := by omega
  have h6 : b0 / 16 ≠ 6 := by omega
  have h7 : b0 / 16 ≠ 7 := by omega
  have h8 : b0 / 16 ≠ 8 := by omega
  have h9 : b0 / 16 ≠ 9 := by omega
  have hA : b0 / 16 ≠ 10 := by omega
  have hB : b0 / 16 ≠ 11 := by omega
  have hC : b0 / 16 ≠ 12 := by omega
  have hD : b0 / 16 ≠ 13 := by omega
  have hE : b0 / 16 ≠ 14 := by omega
  have hF : b0 / 16 ≠ 15 := by omega
  simp only [decode_restricted_documented, decode, decode_documented,
    address_restricted_class,
    h0, h1, h2, h3, h4, h5, h6, h7, h8, h9, hA, hB, hC, hD, hE, hF,
    false_and, if_false]
  simp [h0, h1, h2, hA, hB]

/-! ## Claim C2: decode versus the documented encodings -/

/-- Claim C2 counterexample: the pattern `0x1000` matches the documented
jump encoding (class 1, 12-bit address operand 0x000), yet the source decoder
returns a decode failure, because `decode_1_class_instruction` only accepts
first bytes `0x12..=0x1F`. -/
theorem chip8_C2_counterexample :
    decode_documented 0x10 0x00 = some (.JumpToAddress 0x000) ∧
    decode 0x10 0x00 = none := by
  constructor <;> rfl

/-- Claim C2 (amended): decoding agrees with the documented 35-entry table
with its documented operand extraction everywhere, except that the
legacy-call, jump, call, store-address and jump-with-offset classes further
require the low nibble of byte 0 to be at least 2 (address operand at least
0x200); below that the decoder fails, and it never panics (it is total by
construction). -/
theorem chip8_C2_decode_amended (b0 b1 : Nat) :
    decode b0 b1 = decode_restricted_documented b0 b1 := by
  have hcase : b0 / 16 = 0 ∨ b0 / 16 = 1 ∨ b0 / 16 = 2 ∨ b0 / 16 = 3 ∨ b0 / 16 = 4 ∨
      b0 / 16 = 5 ∨ b0 / 16 = 6 ∨ b0 / 16 = 7 ∨ b0 / 16 = 8 ∨ b0 / 16 = 9 ∨
      b0 / 16 = 10 ∨ b0 / 16 = 11 ∨ b0 / 16 = 12 ∨ b0 / 16 = 13 ∨ b0 / 16 = 14 ∨
      b0 / 16 = 15 ∨ 16 ≤ b0 / 16 := by omega
  rcases hcase with h|h|h|h|h|h|h|h|h|h|h|h|h|h|h|h|h
  · exact decode_refine_class_0 b0 b1 h
  · exact decode_refine_class_1 b0 b1 h
  · exact decode_refine_class_2 b0 b1 h
  · exact decode_refine_class_3 b0 b1 h
  · exact decode_refine_class_4 b0 b1 h
  · exact decode_refine_class_5 b0 b1 h
  · exact decode_refine_class_6 b0 b1 h
  · exact decode_refine_class_7 b0 b1 h
  · exact decode_refine_class_8 b0 b1 h
  · exact decode_refine_class_9 b0 b1 h
  · exact decode_refine_class_a b0 b1 h
  · exact decode_refine_class_b b0 b1 h
  · exact decode_refine_class_c b0 b1 h
  · exact decode_refine_class_d b0 b1 h
  · exact decode_refine_class_e b0 b1 h
  · exact decode_refine_class_f b0 b1 h
  · exact decode_refine_tail b0 b1 h

/-! ## Claim C1: what load resets -/

set_option maxRecDepth 40000 in
/-- Claim C1 counterexample: loading the empty program into a machine whose
register 0 holds 7 and whose call stack holds one address leaves both intact —
`load` never touches `registers` or `stack_memory`. -/
theorem chip8_C1_counterexample :
    (load [] c1_probe_state).map (fun s => (s.registers, s.stack_memory)) =
      some ((List.replicate 16 0).set 0 7, [0x123]) := by decide

/-- Claim C1 (amended): for every prior state and every program that fits,
`load` resets the instruction pointer to 0x200, the address register and both
timers to 0, unlights every framebuffer pixel, and rewrites bytes [0, 80)
with the glyph table — but the sixteen general-purpose registers, the call
stack and the keypad flags keep their prior values. -/
theorem chip8_C1_load_partial_reset (program : List Nat) (s : Chip8)
    (hmem : 80 ≤ s.memory.length)
    (hprog : 0x200 + program.length ≤ s.memory.length) :
    ∃ s', load program s = some s' ∧
      s'.instruction_pointer = 0x200 ∧
      s'.address_register = 0 ∧
      s'.delay_timer = 0 ∧
      s'.sound_timer = 0 ∧
      (∀ p ∈ s'.display, p = blackPixel) ∧
      (∀ i, i < 80 → s'.memory[i]? = sprites_flat[i]?) ∧
      s'.registers = s.registers ∧
      s'.stack_memory = s.stack_memory ∧
      s'.keys = s.keys := by
  have hsl : sprites_flat.length = 80 := by decide
  by_cases hp : program.isEmpty
  · obtain ⟨mem2, hw2, hlen2, hget2⟩ :=
      write_slice_spec sprites_flat (List.replicate s.memory.length 0) 0
        (by simp [hsl]; omega)
    have hload : load program s = some { s with
        memory := mem2
        address_register := 0
        instruction_pointer := 0x200
        delay_timer := 0
        sound_timer := 0
        display := s.display.map fun _ => blackPixel } := by
      simp [load, hp, hw2]
    refine ⟨_, hload, rfl, rfl, rfl, rfl, ?_, ?_, rfl, rfl, rfl⟩
    · intro p hmem'
      rcases List.mem_map.mp hmem' with ⟨q, _, rfl⟩
      rfl
    · intro i hi
      show mem2[i]? = sprites_flat[i]?
      rw [hget2 i, if_pos (by omega), Nat.sub_zero]
  · obtain ⟨mem1, hw1, hlen1, _⟩ :=
      write_slice_spec program (List.replicate s.memory.length 0) 0x200
        (by simp; omega)
    obtain ⟨mem2, hw2, hlen2, hget2⟩ :=
      write_slice_spec sprites_flat mem1 0 (by rw [hlen1]; simp [hsl]; omega)
    have hload : load program s = some { s with
        memory := mem2
        address_register := 0
        instruction_pointer := 0x200
        delay_timer := 0
        sound_timer := 0
        display := s.display.map fun _ => blackPixel } := by
      simp [load, hp, hw1, hw2]
    refine ⟨_, hload, rfl, rfl, rfl, rfl, ?_, ?_, rfl, rfl, rfl⟩
    · intro p hmem'
      rcases List.mem_map.mp hmem' with ⟨q, _, rfl⟩
      rfl
    · intro i hi
      show mem2[i]? = sprites_flat[i]?
      rw [hget2 i, if_pos (by omega), Nat.sub_zero]

/-! ## Claim C4: return with no pushed entry -/

/-- Claim C4: the constructor fills the call stack with `stack_memory` zero
entries (`vec![0; stack_memory]`), so on a freshly constructed machine a
return-from-subroutine pops the default address 0 and continues instead of
faulting; the fatal `expect` fires only once the vector is actually empty
(for example when the machine is constructed with stack depth 0). -/
theorem chip8_C4_return_pops_default :
    (chip8_new 64 1 0 0).stack_memory = [0] ∧
    execute 0 .ReturnFromSubroutine (chip8_new 64 1 0 0) =
      some { chip8_new 64 1 0 0 with instruction_pointer := 0, stack_memory := [] } ∧
    execute 0 .ReturnFromSubroutine { chip8_new 64 1 0 0 with stack_memory := [] } =
      none := by
  refine ⟨rfl, ?_, rfl⟩
  show execute 0 .ReturnFromSubroutine (chip8_new 64 1 0 0) = _
  rfl

/-! ## Claim C5: the host timer tick -/

/-- Claim C5 counterexample: a timer tick on a machine whose sound timer
holds 5 leaves it at 5 — `decrement_time` only touches the delay timer. -/
theorem chip8_C5_counterexample :
    (decrement_time c5_probe_state).delay_timer = 6 ∧
    (decrement_time c5_probe_state).sound_timer = 5 := ⟨rfl, rfl⟩

/-- Claim C5 (amended): each host-driven timer tick decrements the delay
timer by one when it is nonzero and leaves it at zero otherwise (truncated
subtraction never wraps), and changes nothing else — in particular the sound
timer is never decremented by it. -/
theorem chip8_C5_tick_timer (s : Chip8) :
    (decrement_time s).delay_timer = s.delay_timer - 1 ∧
    (decrement_time s).sound_timer = s.sound_timer ∧
    decrement_time s = { s with delay_timer := s.delay_timer - 1 } :=
  ⟨rfl, rfl, rfl⟩

/-! ## Claim C6: stepping an all-zero program -/

/-- Loading an all-zero program leaves every memory byte from 80 up zero. -/
theorem load_zeros_mem (k : Nat) (s : Chip8) (hm : 80 ≤ s.memory.length)
    (hk : 0x200 + k ≤ s.memory.length) :
    ∃ s0, load (List.replicate k 0) s = some s0 ∧
      s0.instruction_pointer = 0x200 ∧
      s0.memory.length = s.memory.length ∧
      ∀ i, 80 ≤ i → i < s.memory.length → s0.memory[i]? = some 0 := by
  have hsl : sprites_flat.length = 80 := by decide
  by_cases hp : (List.replicate k 0).isEmpty
  · obtain ⟨mem2, hw2, hlen2, hget2⟩ :=
      write_slice_spec sprites_flat (List.replicate s.memory.length 0) 0
        (by simp [hsl]; omega)
    have hload : load (List.replicate k 0) s = some { s with
        memory := mem2
        address_register := 0
        instruction_pointer := 0x200
        delay_timer := 0
        sound_timer := 0
        display := s.display.map fun _ => blackPixel } := by
      simp [load, hp, hw2]
    refine ⟨_, hload, rfl, by simpa using hlen2, ?_⟩
    intro i h80 hilen
    show mem2[i]? = some 0
    rw [hget2 i, if_neg (by omega), List.getElem?_replicate, if_pos (by simpa using hilen)]
  · obtain ⟨mem1, hw1, hlen1, hget1⟩ :=
      write_slice_spec (List.replicate k 0) (List.replicate s.memory.length 0) 0x200
        (by simp; omega)
    obtain ⟨mem2, hw2, hlen2, hget2⟩ :=
      write_slice_spec sprites_flat mem1 0 (by rw [hlen1]; simp [hsl]; omega)
    have hload : load (List.replicate k 0) s = some { s with
        memory := mem2
        address_register := 0
        instruction_pointer := 0x200
        delay_timer := 0
        sound_timer := 0
        display := s.display.map fun _ => blackPixel } := by
      simp [load, hp, hw1, hw2]
    refine ⟨_, hload, rfl, by rw [hlen2, hlen1]; simp, ?_⟩
    intro i h80 hilen
    show mem2[i]? = some 0
    rw [hget2 i, if_neg (by omega), hget1 i]
    by_cases hin : 0x200 ≤ i ∧ i < 0x200 + (List.replicate k 0).length
    · rw [if_pos hin, List.getElem?_replicate, if_pos (by simp at hin; omega)]
    · rw [if_neg hin, List.getElem?_replicate, if_pos (by simpa using hilen)]

/-- Stepping through a run of zero instruction bytes advances the pointer by
2 per step and changes nothing else: the all-zero word is a decode failure,
logged and treated as a no-op. -/
theorem tick_n_on_zeros (rand : Nat) : ∀ (n : Nat) (s : Chip8),
    (∀ i, s.instruction_pointer ≤ i → i < s.instruction_pointer + 2 * n →
      s.memory[i]? = some 0) →
    s.instruction_pointer + 2 * n < 65536 →
    ∃ sN, tick_n rand n s = some sN ∧
      sN.instruction_pointer = s.instruction_pointer + 2 * n ∧
      sN.memory = s.memory ∧ sN.registers = s.registers ∧
      sN.stack_memory = s.stack_memory ∧ sN.keys = s.keys ∧
      sN.display = s.display ∧ sN.display_color = s.display_color ∧
      sN.display_scale = s.display_scale ∧
      sN.address_register = s.address_register ∧
      sN.delay_timer = s.delay_timer ∧ sN.sound_timer = s.sound_timer := by
  intro n
  induction n with
  | zero =>
    intro s _ _
    exact ⟨s, rfl, by omega, rfl, rfl, rfl, rfl, rfl, rfl, rfl, rfl, rfl, rfl⟩
  | succ m ih =>
    intro s hmem hip
    have h0 : s.memory[s.instruction_pointer]? = some 0 := hmem _ le_rfl (by omega)
    have h1 : s.memory[s.instruction_pointer + 1]? = some 0 := hmem _ (by omega) (by omega)
    have hdec : decode 0 0 = none := rfl
    have htick : tick rand s = some (ip_plus_2 s) := by
      simp [tick, get_instruction, h0, h1, hdec]
    have hip2 : (ip_plus_2 s).instruction_pointer = s.instruction_pointer + 2 := by
      show (s.instruction_pointer + 2) % 65536 = s.instruction_pointer + 2
      exact Nat.mod_eq_of_lt (by omega)
    have hm2 : (ip_plus_2 s).memory = s.memory := rfl
    obtain ⟨sN, hrun, hipN, hmemN, hregN, hstkN, hkeyN, hdisN, hdcN, hdsN, haN, hdtN, hstN⟩ :=
      ih (ip_plus_2 s)
        (fun i hi1 hi2 => by
          rw [hm2]
          rw [hip2] at hi1 hi2
          exact hmem i (by omega) (by omega))
        (by rw [hip2]; omega)
    refine ⟨sN, ?_, ?_, ?_, ?_, ?_, ?_, ?_, ?_, ?_, ?_, ?_, ?_⟩ <;>
      first
        | (show (tick rand s).bind (tick_n rand m) = some sN
           rw [htick]
           simpa using hrun)
        | (rw [hipN, hip2]; omega)
        | simp [hmemN, hregN, hstkN, hkeyN, hdisN, hdcN, hdsN, haN, hdtN, hstN, hm2, ip_plus_2]

/-- Claim C6 counterexample: the all-zero instruction word is a decode
failure, not the legacy machine-language call (`decode_0_class_instruction`
requires the first byte in `0x02..=0x0f` for that). -/
theorem chip8_C6_counterexample : decode 0x00 0x00 = none := rfl

/-- Claim C6 (amended): loading an all-zero program into a fresh machine and
stepping N times advances the instruction pointer by exactly 2N and mutates
no other state; each step fetches the all-zero word, which fails to decode
and is treated as a logged no-op (rather than decoding as the legacy
machine-language call). -/
theorem chip8_C6_zero_program_steps
    (rand N memsize stackn scale color k : Nat)
    (hk : 0x200 + k ≤ memsize)
    (hN : 0x200 + 2 * N + 1 < memsize)
    (hbound : memsize ≤ 65536) :
    ∃ s0, load (List.replicate k 0) (chip8_new memsize stackn scale color) = some s0 ∧
      s0.instruction_pointer = 0x200 ∧
      ∃ sN, tick_n rand N s0 = some sN ∧
        sN.instruction_pointer = 0x200 + 2 * N ∧
        sN.memory = s0.memory ∧ sN.registers = s0.registers ∧
        sN.stack_memory = s0.stack_memory ∧ sN.keys = s0.keys ∧
        sN.display = s0.display ∧
        sN.address_register = s0.address_register ∧
        sN.delay_timer = s0.delay_timer ∧ sN.sound_timer = s0.sound_timer := by
  obtain ⟨s0, hload, hip, hlen, hzero⟩ :=
    load_zeros_mem k (chip8_new memsize stackn scale color)
      (by simp [chip8_new]; omega) (by simp [chip8_new]; omega)
  have hlen' : s0.memory.length = memsize := by simpa [chip8_new] using hlen
  refine ⟨s0, hload, hip, ?_⟩
  obtain ⟨sN, hrun, hipN, hmemN, hregN, hstkN, hkeyN, hdisN, _, _, haN, hdtN, hstN⟩ :=
    tick_n_on_zeros rand N s0
      (fun i hi1 hi2 => hzero i (by omega) (by simp only [chip8_new, List.length_replicate]; omega))
      (by rw [hip]; omega)
  rw [hip] at hipN
  exact ⟨sN, hrun, hipN, hmemN, hregN, hstkN, hkeyN, hdisN, haN, hdtN, hstN⟩

/-- Claim C6 witness: a fresh 528-byte machine loaded with two zero bytes,
stepped three times. -/
theorem chip8_C6_witness :
    ∃ s0, load (List.replicate 2 0) (chip8_new 528 0 0 0) = some s0 ∧
      s0.instruction_pointer = 0x200 ∧
      ∃ sN, tick_n 0 3 s0 = some sN ∧
        sN.instruction_pointer = 0x200 + 2 * 3 ∧
        sN.memory = s0.memory ∧ sN.registers = s0.registers ∧
        sN.stack_memory = s0.stack_memory ∧ sN.keys = s0.keys ∧
        sN.display = s0.display ∧
        sN.address_register = s0.address_register ∧
        sN.delay_timer = s0.delay_timer ∧ sN.sound_timer = s0.sound_timer :=
  chip8_C6_zero_program_steps 0 3 528 0 0 0 2 (by norm_num) (by norm_num) (by norm_num)

/-! ## Claim C3: instruction-pointer bookkeeping -/

theorem getD_of_getElem? (l : List Nat) (i v : Nat) (h : l[i]? = some v) :
    l.getD i 0 = v := by
  rw [List.getD_eq_getElem?_getD, h]
  rfl

theorem getD_of_getElem?_bool (l : List Bool) (i : Nat) (v : Bool)
    (h : l[i]? = some v) : l.getD i false = v := by
  rw [List.getD_eq_getElem?_getD, h]
  rfl

/-- A register write changes only the register file. -/
theorem set_reg_fields (s s' : Chip8) (i v : Nat) (h : set_reg s i v = some s') :
    s'.instruction_pointer = s.instruction_pointer ∧
    s'.stack_memory = s.stack_memory ∧
    i < s.registers.length ∧
    s' = { s with registers := s.registers.set i v } := by
  by_cases hlt : i < s.registers.length
  · simp only [set_reg, vec_write, if_pos hlt, Option.bind_eq_bind, Option.some_bind,
      Option.pure_def, Option.some_inj] at h
    subst h
    exact ⟨rfl, rfl, hlt, rfl⟩
  · simp [set_reg, vec_write, if_neg hlt] at h

/-- An executed instruction that is not a control transfer, not a taken
skip, and not a stalled wait leaves the instruction pointer and the call
stack untouched. -/
theorem execute_plain_ip (rand : Nat) (ins : Instruction) (s s' : Chip8)
    (hset : sets_pointer ins = false)
    (hskip : skip_taken s ins = false)
    (hwait : wait_stalled s ins = false)
    (hex : execute rand ins s = some s') :
    s'.instruction_pointer = s.instruction_pointer := by
  cases ins with
  | ExecSubroutineML a =>
    simp only [execute, Option.some_inj] at hex
    subst hex; rfl
  | ClearScreen =>
    simp only [execute, Option.some_inj] at hex
    subst hex; rfl
  | ReturnFromSubroutine => simp [sets_pointer] at hset
  | JumpToAddress a => simp [sets_pointer] at hset
  | ExecSubroutine a => simp [sets_pointer] at hset
  | JumpWithOffset a => simp [sets_pointer] at hset
  | SkipFollowingIfRegEq r v =>
    cases ha : s.registers[r]? with
    | none => simp [execute, ha] at hex
    | some a =>
      simp only [execute, ha, Option.bind_eq_bind, Option.some_bind,
        Option.pure_def, Option.some_inj] at hex
      simp only [skip_taken] at hskip
      rw [getD_of_getElem? _ _ _ ha, beq_eq_false_iff_ne] at hskip
      rw [← hex, if_neg hskip]
  | SkipFollowingIfRegNeq r v =>
    cases ha : s.registers[r]? with
    | none => simp [execute, ha] at hex
    | some a =>
      simp only [execute, ha, Option.bind_eq_bind, Option.some_bind,
        Option.pure_def, Option.some_inj] at hex
      simp only [skip_taken] at hskip
      rw [getD_of_getElem? _ _ _ ha, bne_eq_false_iff_eq] at hskip
      rw [← hex, if_neg (not_not_intro hskip)]
  | SkipFollowingIfRegEqReg r0 r1 =>
    cases ha : s.registers[r0]? with
    | none => simp [execute, ha] at hex
    | some a =>
      cases hb : s.registers[r1]? with
      | none => simp [execute, ha, hb] at hex
      | some b =>
        simp only [execute, ha, hb, Option.bind_eq_bind, Option.some_bind,
          Option.pure_def, Option.some_inj] at hex
        simp only [skip_taken] at hskip
        rw [getD_of_getElem? _ _ _ ha, getD_of_getElem? _ _ _ hb,
          beq_eq_false_iff_ne] at hskip
        rw [← hex, if_neg hskip]
  | SkipIfNE r0 r1 =>
    cases ha : s.registers[r0]? with
    | none => simp [execute, ha] at hex
    | some a =>
      cases hb : s.registers[r1]? with
      | none => simp [execute, ha, hb] at hex
      | some b =>
        simp only [execute, ha, hb, Option.bind_eq_bind, Option.some_bind,
          Option.pure_def, Option.some_inj] at hex
        simp only [skip_taken] at hskip
        rw [getD_of_getElem? _ _ _ ha, getD_of_getElem? _ _ _ hb,
          bne_eq_false_iff_eq] at hskip
        rw [← hex, if_neg (not_not_intro hskip)]
  | SkipIfKeyPressed r =>
    cases hv : s.registers[r]? with
    | none => simp [execute, hv] at hex
    | some v =>
      cases hp : s.keys[v]? with
      | none => simp [execute, hv, hp] at hex
      | some p =>
        simp only [execute, hv, hp, Option.bind_eq_bind, Option.some_bind,
          Option.pure_def, Option.some_inj] at hex
        simp only [skip_taken] at hskip
        rw [getD_of_getElem? _ _ _ hv, getD_of_getElem?_bool _ _ _ hp] at hskip
        rw [← hex]
        simp [hskip]
  | SkipIfKeyNotPressed r =>
    cases hv : s.registers[r]? with
    | none => simp [execute, hv] at hex
    | some v =>
      cases hp : s.keys[v]? with
      | none => simp [execute, hv, hp] at hex
      | some p =>
        simp only [execute, hv, hp, Option.bind_eq_bind, Option.some_bind,
          Option.pure_def, Option.some_inj] at hex
        simp only [skip_taken] at hskip
        rw [getD_of_getElem? _ _ _ hv, getD_of_getElem?_bool _ _ _ hp] at hskip
        simp at hskip
        rw [← hex]
        simp [hskip]
  | StoreToReg r v => exact (set_reg_fields _ _ _ _ hex).1
  | AddToReg r v =>
    cases ha : s.registers[r]? with
    | none => simp [execute, ha] at hex
    | some a =>
      simp only [execute, ha, Option.bind_eq_bind, Option.some_bind] at hex
      exact (set_reg_fields _ _ _ _ hex).1
  | MoveValue r0 r1 =>
    cases hb : s.registers[r1]? with
    | none => simp [execute, hb] at hex
    | some b =>
      simp only [execute, hb, Option.bind_eq_bind, Option.some_bind] at hex
      exact (set_reg_fields _ _ _ _ hex).1
  | OrRegister r0 r1 =>
    cases ha : s.registers[r0]? with
    | none => simp [execute, ha] at hex
    | some a =>
      cases hb : s.registers[r1]? with
      | none => simp [execute, ha, hb] at hex
      | some b =>
        simp only [execute, ha, hb, Option.bind_eq_bind, Option.some_bind] at hex
        exact (set_reg_fields _ _ _ _ hex).1
  | AndRegister r0 r1 =>
    cases ha : s.registers[r0]? with
    | none => simp [execute, ha] at hex
    | some a =>
      cases hb : s.registers[r1]? with
      | none => simp [execute, ha, hb] at hex
      | some b =>
        simp only [execute, ha, hb, Option.bind_eq_bind, Option.some_bind] at hex
        exact (set_reg_fields _ _ _ _ hex).1
  | XorRegister r0 r1 =>
    cases ha : s.registers[r0]? with
    | none => simp [execute, ha] at hex
    | some a =>
      cases hb : s.registers[r1]? with
      | none => simp [execute, ha, hb] at hex
      | some b =>
        simp only [execute, ha, hb, Option.bind_eq_bind, Option.some_bind] at hex
        exact (set_reg_fields _ _ _ _ hex).1
  | AddWithCarry r0 r1 =>
    cases ha : s.registers[r0]? with
    | none => simp [execute, ha] at hex
    | some a =>
      cases hb : s.registers[r1]? with
      | none => simp [execute, ha, hb] at hex
      | some b =>
        cases hs1 : set_reg s r0 ((a + b) % 256) with
        | none => simp [execute, ha, hb, hs1] at hex
        | some s1 =>
          simp only [execute, ha, hb, hs1, Option.bind_eq_bind, Option.some_bind] at hex
          rw [(set_reg_fields _ _ _ _ hex).1, (set_reg_fields _ _ _ _ hs1).1]
  | SubWithCarry r0 r1 =>
    cases ha : s.registers[r0]? with
    | none => simp [execute, ha] at hex
    | some a =>
      cases hb : s.registers[r1]? with
      | none => simp [execute, ha, hb] at hex
      | some b =>
        cases hs1 : set_reg s r0 ((a + 256 - b) % 256) with
        | none => simp [execute, ha, hb, hs1] at hex
        | some s1 =>
          simp only [execute, ha, hb, hs1, Option.bind_eq_bind, Option.some_bind] at hex
          rw [(set_reg_fields _ _ _ _ hex).1, (set_reg_fields _ _ _ _ hs1).1]
  | SubWithCarry2 r0 r1 =>
    cases ha : s.registers[r0]? with
    | none => simp [execute, ha] at hex
    | some a =>
      cases hb : s.registers[r1]? with
      | none => simp [execute, ha, hb] at hex
      | some b =>
        cases hs1 : set_reg s r0 ((b + 256 - a) % 256) with
        | none => simp [execute, ha, hb, hs1] at hex
        | some s1 =>
          simp only [execute, ha, hb, hs1, Option.bind_eq_bind, Option.some_bind] at hex
          rw [(set_reg_fields _ _ _ _ hex).1, (set_reg_fields _ _ _ _ hs1).1]
  | ShiftRight r0 r1 =>
    cases hb : s.registers[r1]? with
    | none => simp [execute, hb] at hex
    | some b =>
      cases hs1 : set_reg s r0 (b / 2) with
      | none => simp [execute, hb, hs1] at hex
      | some s1 =>
        simp only [execute, hb, hs1, Option.bind_eq_bind, Option.some_bind] at hex
        rw [(set_reg_fields _ _ _ _ hex).1, (set_reg_fields _ _ _ _ hs1).1]
  | ShiftLeft r0 r1 =>
    cases hb : s.registers[r1]? with
    | none => simp [execute, hb] at hex
    | some b =>
      cases hs1 : set_reg s r0 (b * 2 % 256) with
      | none => simp [execute, hb, hs1] at hex
      | some s1 =>
        simp only [execute, hb, hs1, Option.bind_eq_bind, Option.some_bind] at hex
        rw [(set_reg_fields _ _ _ _ hex).1, (set_reg_fields _ _ _ _ hs1).1]
  | StoreAddressToI a =>
    simp only [execute, Option.some_inj] at hex
    subst hex; rfl
  | RandWithMask r mask => exact (set_reg_fields _ _ _ _ hex).1
  | DrawSprite r0 r1 len =>
    cases hx : s.registers[r0]? with
    | none => simp [execute, hx] at hex
    | some x =>
      cases hy : s.registers[r1]? with
      | none => simp [execute, hx, hy] at hex
      | some y =>
        cases hd : read_range s.memory s.address_register
            ((s.address_register + len) % 65536) with
        | none => simp [execute, hx, hy, hd] at hex
        | some d =>
          simp only [execute, hx, hy, hd, Option.bind_eq_bind, Option.some_bind,
            Option.pure_def, Option.some_inj] at hex
          subst hex; rfl
  | ReadDelayTimer r => exact (set_reg_fields _ _ _ _ hex).1
  | WaitForKey r =>
    cases hfp : first_pressed s.keys with
    | none =>
      simp only [wait_stalled, hfp] at hwait
      simp at hwait
    | some k =>
      simp only [execute, hfp] at hex
      exact (set_reg_fields _ _ _ _ hex).1
  | WriteDelayTimer r =>
    cases hv : s.registers[r]? with
    | none => simp [execute, hv] at hex
    | some v =>
      simp only [execute, hv, Option.bind_eq_bind, Option.some_bind, Option.pure_def,
        Option.some_inj] at hex
      subst hex; rfl
  | WriteSoundTimer r =>
    cases hv : s.registers[r]? with
    | none => simp [execute, hv] at hex
    | some v =>
      simp only [execute, hv, Option.bind_eq_bind, Option.some_bind, Option.pure_def,
        Option.some_inj] at hex
      subst hex; rfl
  | IncrementIWithReg r =>
    cases hv : s.registers[r]? with
    | none => simp [execute, hv] at hex
    | some v =>
      simp only [execute, hv, Option.bind_eq_bind, Option.some_bind, Option.pure_def,
        Option.some_inj] at hex
      subst hex; rfl
  | GetSpriteDataAddress r =>
    cases hv : s.registers[r]? with
    | none => simp [execute, hv] at hex
    | some v =>
      simp only [execute, hv, Option.bind_eq_bind, Option.some_bind, Option.pure_def,
        Option.some_inj] at hex
      subst hex; rfl
  | StoreBCD r =>
    cases hv : s.registers[r]? with
    | none => simp [execute, hv] at hex
    | some v =>
      cases hm : write_slice s.memory [v / 100 % 10, v / 10 % 10, v % 10]
          s.address_register with
      | none => simp [execute, hv, hm] at hex
      | some m =>
        simp only [execute, hv, hm, Option.bind_eq_bind, Option.some_bind,
          Option.pure_def, Option.some_inj] at hex
        subst hex; rfl
  | StoreRegisters r =>
    by_cases hlt : r < s.registers.length
    · cases hm : write_slice s.memory (s.registers.take (r + 1)) s.address_register with
      | none => simp [execute, if_pos hlt, hm] at hex
      | some m =>
        simp only [execute, if_pos hlt, hm, Option.bind_eq_bind, Option.some_bind,
          Option.pure_def, Option.some_inj] at hex
        subst hex; rfl
    · simp [execute, if_neg hlt] at hex
  | FillRegisters r =>
    by_cases hlt : r < s.registers.length
    · cases hm : read_range s.memory s.address_register
          (s.address_register + (r + 1)) with
      | none => simp [execute, if_pos hlt, hm] at hex
      | some vals =>
        simp only [execute, if_pos hlt, hm, Option.bind_eq_bind, Option.some_bind,
          Option.pure_def, Option.some_inj] at hex
        subst hex; rfl
    · simp [execute, if_neg hlt] at hex

/-- Splitting one `tick` into its decoded execution and the uniform +2. -/
theorem tick_split (rand : Nat) (s t : Chip8) (b0 b1 : Nat) (ins : Instruction)
    (hfetch : get_instruction s s.instruction_pointer = some (b0, b1))
    (hdec : decode b0 b1 = some ins)
    (htick : tick rand s = some t) :
    ∃ s', execute rand ins s = some s' ∧ t = ip_plus_2 s' := by
  unfold tick at htick
  rw [hfetch] at htick
  simp only [Option.bind_eq_bind, Option.some_bind, hdec, Option.bind_eq_some,
    Option.pure_def, Option.some_inj] at htick
  obtain ⟨s', h1, h2⟩ := htick
  exact ⟨s', h1, h2.symm⟩

/-- Claim C3 counterexample: a step executing wait-for-key with no key
pressed — an instruction that is neither jump, call, return, nor a skip —
leaves the instruction pointer unchanged instead of 2 larger. -/
theorem chip8_C3_counterexample :
    get_instruction c3_wait_state c3_wait_state.instruction_pointer =
      some (0xF0, 0x0A) ∧
    decode 0xF0 0x0A = some (.WaitForKey 0) ∧
    sets_pointer (.WaitForKey 0) = false ∧
    skip_taken c3_wait_state (.WaitForKey 0) = false ∧
    (tick 0 c3_wait_state).map Chip8.instruction_pointer =
      some c3_wait_state.instruction_pointer := by decide

/-- Claim C3 (amended): after a step that decodes and executes an
instruction, the pointer is exactly 2 larger unless the instruction is a
control transfer (jump / call / return / jump-with-offset), a taken skip, or
a wait-for-key that found no pressed key; a jump or call to address A lands
exactly on A (the handler's −2 cancelling the uniform +2), a call moreover
pushes the pre-advance pointer — the call instruction's own address — onto
the stack, and a return lands on the popped call-site address plus 2. -/
theorem chip8_C3_pointer_advance (rand : Nat) (s t : Chip8) (b0 b1 : Nat)
    (ins : Instruction)
    (hfetch : get_instruction s s.instruction_pointer = some (b0, b1))
    (hdec : decode b0 b1 = some ins)
    (htick : tick rand s = some t)
    (hip : s.instruction_pointer + 2 < 65536) :
    (sets_pointer ins = false → skip_taken s ins = false →
      wait_stalled s ins = false →
      t.instruction_pointer = s.instruction_pointer + 2) ∧
    (∀ a, a < 65534 → ins = .JumpToAddress a → t.instruction_pointer = a) ∧
    (∀ a, a < 65534 → ins = .ExecSubroutine a → t.instruction_pointer = a ∧
      t.stack_memory = s.instruction_pointer :: s.stack_memory) ∧
    (ins = .ReturnFromSubroutine → ∀ top rest, s.stack_memory = top :: rest →
      top + 2 < 65536 → t.instruction_pointer = top + 2) := by
  obtain ⟨s', hex, ht⟩ := tick_split rand s t b0 b1 ins hfetch hdec htick
  refine ⟨?_, ?_, ?_, ?_⟩
  · intro h1 h2 h3
    have hplain := execute_plain_ip rand ins s s' h1 h2 h3 hex
    rw [ht]
    show (s'.instruction_pointer + 2) % 65536 = s.instruction_pointer + 2
    rw [hplain]
    exact Nat.mod_eq_of_lt hip
  · intro a ha hins
    subst hins
    have : execute rand (.JumpToAddress a) s =
        some (ip_minus_2 { s with instruction_pointer := a % 65536 }) := rfl
    rw [this, Option.some_inj] at hex
    subst hex
    rw [ht]
    show ((a % 65536 + 65534) % 65536 + 2) % 65536 = a
    omega
  · intro a ha hins
    subst hins
    have : execute rand (.ExecSubroutine a) s =
        some (ip_minus_2 { s with
          stack_memory := s.instruction_pointer :: s.stack_memory
          instruction_pointer := a % 65536 }) := rfl
    rw [this, Option.some_inj] at hex
    subst hex
    rw [ht]
    constructor
    · show ((a % 65536 + 65534) % 65536 + 2) % 65536 = a
      omega
    · rfl
  · intro hins top rest hstack htop
    subst hins
    have : execute rand .ReturnFromSubroutine s =
        some { s with instruction_pointer := top, stack_memory := rest } := by
      simp only [execute, hstack]
    rw [this, Option.some_inj] at hex
    subst hex
    rw [ht]
    show (top + 2) % 65536 = top + 2
    exact Nat.mod_eq_of_lt htop

/-- Claim C3 witness: stepping a machine whose current instruction is
`0x1234` lands the pointer exactly on 0x234. -/
theorem chip8_C3_witness :
    tick 0 c3_jump_state = some c3_jump_result ∧
    c3_jump_result.instruction_pointer = 0x234 := by
  have htick : tick 0 c3_jump_state = some c3_jump_result := by decide
  refine ⟨htick, ?_⟩
  exact (chip8_C3_pointer_advance 0 c3_jump_state c3_jump_result 0x12 0x34
    (.JumpToAddress 0x234) (by decide) (by decide) htick (by decide)).2.1
    0x234 (by decide) rfl

/-- Claim C1 witness: loading a one-byte program into a fresh 520-byte
machine. -/
theorem chip8_C1_witness :
    ∃ s', load [9] (chip8_new 520 0 0 0) = some s' ∧
      s'.instruction_pointer = 0x200 ∧
      s'.address_register = 0 ∧
      s'.delay_timer = 0 ∧
      s'.sound_timer = 0 ∧
      (∀ p ∈ s'.display, p = blackPixel) ∧
      (∀ i, i < 80 → s'.memory[i]? = sprites_flat[i]?) ∧
      s'.registers = (chip8_new 520 0 0 0).registers ∧
      s'.stack_memory = (chip8_new 520 0 0 0).stack_memory ∧
      s'.keys = (chip8_new 520 0 0 0).keys :=
  chip8_C1_load_partial_reset [9] (chip8_new 520 0 0 0)
    (by simp only [chip8_new, List.length_replicate]; omega)
    (by simp only [chip8_new, List.length_replicate, List.length_cons,
      List.length_nil]; omega)

/-! ## Claim C7: wait-for-key -/

/-- Claim C7: a step whose current instruction is wait-for-key spins in
place (the whole state unchanged, no register written) while no keypad flag
is set, and otherwise writes the lowest-indexed pressed key into the
destination register and advances the pointer by 2. -/
theorem chip8_C7_wait_for_key (rand : Nat) (s : Chip8) (b0 b1 r : Nat)
    (hfetch : get_instruction s s.instruction_pointer = some (b0, b1))
    (hdec : decode b0 b1 = some (.WaitForKey r))
    (hreg : r < s.registers.length)
    (hip : s.instruction_pointer + 2 < 65536) :
    ((∀ b ∈ s.keys, b = false) → tick rand s = some s) ∧
    ((∃ b ∈ s.keys, b = true) →
      ∃ k, first_pressed s.keys = some k ∧
        s.keys[k]? = some true ∧
        (∀ j, j < k → s.keys[j]? = some false) ∧
        tick rand s = some { s with
          registers := s.registers.set r k
          instruction_pointer := s.instruction_pointer + 2 }) := by
  constructor
  · intro hall
    have hfp : first_pressed s.keys = none := (first_pressed_eq_none_iff _).mpr hall
    have hex : execute rand (.WaitForKey r) s = some (ip_minus_2 s) := by
      simp only [execute, hfp]
    have htickeq : tick rand s = some (ip_plus_2 (ip_minus_2 s)) := by
      unfold tick
      rw [hfetch]
      simp only [Option.bind_eq_bind, Option.some_bind, hdec, hex, Option.pure_def]
    rw [htickeq]
    refine congrArg some ?_
    unfold ip_plus_2 ip_minus_2
    rw [show ((s.instruction_pointer + 65534) % 65536 + 2) % 65536 =
      s.instruction_pointer from by omega]
  · intro hsome
    obtain ⟨b, hbmem, hbt⟩ := hsome
    subst hbt
    cases hfp : first_pressed s.keys with
    | none =>
      rw [first_pressed_eq_none_iff] at hfp
      exact absurd (hfp true hbmem) (by simp)
    | some k =>
      obtain ⟨hk1, hk2⟩ := first_pressed_some_spec s.keys k hfp
      have hsr : set_reg s r k = some { s with registers := s.registers.set r k } := by
        simp [set_reg, vec_write, hreg]
      have hex : execute rand (.WaitForKey r) s =
          some { s with registers := s.registers.set r k } := by
        simp only [execute, hfp, hsr]
      have htickeq : tick rand s =
          some (ip_plus_2 { s with registers := s.registers.set r k }) := by
        unfold tick
        rw [hfetch]
        simp only [Option.bind_eq_bind, Option.some_bind, hdec, hex, Option.pure_def]
      refine ⟨k, rfl, hk1, hk2, ?_⟩
      rw [htickeq]
      refine congrArg some ?_
      unfold ip_plus_2
      rw [show (s.instruction_pointer + 2) % 65536 = s.instruction_pointer + 2
        from Nat.mod_eq_of_lt hip]

/-- Claim C7 witness: the two keypad situations on the probe states with the
wait instruction `0xF30A` at the pointer. -/
theorem chip8_C7_witness :
    tick 0 c7_nokey_state = some c7_nokey_state ∧
    ∃ k, first_pressed c7_key_state.keys = some k ∧
      c7_key_state.keys[k]? = some true ∧
      (∀ j, j < k → c7_key_state.keys[j]? = some false) ∧
      tick 0 c7_key_state = some { c7_key_state with
        registers := c7_key_state.registers.set 3 k
        instruction_pointer := c7_key_state.instruction_pointer + 2 } := by
  constructor
  · exact (chip8_C7_wait_for_key 0 c7_nokey_state 0xF3 0x0A 3
      (by decide) (by decide) (by decide) (by decide)).1 (by decide)
  · exact (chip8_C7_wait_for_key 0 c7_key_state 0xF3 0x0A 3
      (by decide) (by decide) (by decide) (by decide)).2 (by decide)

/-! ## Claim C8: arithmetic flags -/

theorem getD_set_self (l : List Nat) (i v : Nat) (h : i < l.length) :
    (l.set i v).getD i 0 = v := by
  rw [List.getD_eq_getElem?_getD, List.getElem?_set_self h]
  rfl

theorem getD_set_ne (l : List Nat) (i j v : Nat) (h : i ≠ j) :
    (l.set i v).getD j 0 = l.getD j 0 := by
  rw [List.getD_eq_getElem?_getD, List.getElem?_set_ne h, ← List.getD_eq_getElem?_getD]

/-- The add-with-carry handler: result modulo 256 into the destination, then
flag register 15 set from the overflow. -/
theorem execute_add_with_carry (rand : Nat) (s : Chip8) (r0 r1 : Nat)
    (h0 : r0 < s.registers.length) (h1 : r1 < s.registers.length)
    (h15 : 15 < s.registers.length) :
    execute rand (.AddWithCarry r0 r1) s =
      some { s with registers :=
        ((s.registers.set r0 ((s.registers.getD r0 0 + s.registers.getD r1 0) % 256)).set
            15 (if 256 ≤ s.registers.getD r0 0 + s.registers.getD r1 0 then 1 else 0)) } := by
  have ha := getElem?_eq_some_getD s.registers r0 h0
  have hb := getElem?_eq_some_getD s.registers r1 h1
  have hs1 : set_reg s r0 ((s.registers.getD r0 0 + s.registers.getD r1 0) % 256) =
      some { s with registers :=
              (s.registers.set r0
                ((s.registers.getD r0 0 + s.registers.getD r1 0) % 256)) } := by
    simp [set_reg, vec_write, h0]
  have hs2 : set_reg
      { s with registers :=
              (s.registers.set r0
                ((s.registers.getD r0 0 + s.registers.getD r1 0) % 256)) }
      15 (if 256 ≤ s.registers.getD r0 0 + s.registers.getD r1 0 then 1 else 0) =
      some { s with registers :=
              ((s.registers.set r0
                ((s.registers.getD r0 0 + s.registers.getD r1 0) % 256)).set
                15 (if 256 ≤ s.registers.getD r0 0 + s.registers.getD r1 0
                    then 1 else 0)) } := by
    simp [set_reg, vec_write, List.length_set, h15]
  simp only [execute, ha, hb, Option.bind_eq_bind, Option.some_bind, hs1, hs2]

/-- The subtract-with-carry handler: wrapped difference into the destination,
then flag register 15 cleared exactly when a borrow occurred. -/
theorem execute_sub_with_carry (rand : Nat) (s : Chip8) (r0 r1 : Nat)
    (h0 : r0 < s.registers.length) (h1 : r1 < s.registers.length)
    (h15 : 15 < s.registers.length) :
    execute rand (.SubWithCarry r0 r1) s =
      some { s with registers :=
        ((s.registers.set r0 ((s.registers.getD r0 0 + 256 - s.registers.getD r1 0) % 256)).set
            15 (if s.registers.getD r0 0 < s.registers.getD r1 0 then 0 else 1)) } := by
  have ha := getElem?_eq_some_getD s.registers r0 h0
  have hb := getElem?_eq_some_getD s.registers r1 h1
  have hs1 : set_reg s r0 ((s.registers.getD r0 0 + 256 - s.registers.getD r1 0) % 256) =
      some { s with registers :=
              (s.registers.set r0
                ((s.registers.getD r0 0 + 256 - s.registers.getD r1 0) % 256)) } := by
    simp [set_reg, vec_write, h0]
  have hs2 : set_reg
      { s with registers :=
              (s.registers.set r0
                ((s.registers.getD r0 0 + 256 - s.registers.getD r1 0) % 256)) }
      15 (if s.registers.getD r0 0 < s.registers.getD r1 0 then 0 else 1) =
      some { s with registers :=
              ((s.registers.set r0
                ((s.registers.getD r0 0 + 256 - s.registers.getD r1 0) % 256)).set
                15 (if s.registers.getD r0 0 < s.registers.getD r1 0
                    then 0 else 1)) } := by
    simp [set_reg, vec_write, List.length_set, h15]
  simp only [execute, ha, hb, Option.bind_eq_bind, Option.some_bind, hs1, hs2]

/-- Claim C8: add-with-carry on 0xFF and 0x01 gives 0x00 with flag 1;
subtract-with-carry on 0x01 and 0x02 gives flag 0 (borrow); in general the
subtract flag is 1 exactly when no borrow occurred (inverted polarity), and
both results are reduced modulo 256. -/
theorem chip8_C8_arith_flags (rand : Nat) (s : Chip8) (r0 r1 : Nat)
    (hlen : s.registers.length = 16) (hr0 : r0 < 16) (hr1 : r1 < 16) :
    (s.registers.getD r0 0 = 0xFF → s.registers.getD r1 0 = 0x01 → r0 ≠ 15 →
      ∃ s', execute rand (.AddWithCarry r0 r1) s = some s' ∧
        s'.registers.getD r0 0 = 0x00 ∧ s'.registers.getD 15 0 = 1) ∧
    (s.registers.getD r0 0 = 0x01 → s.registers.getD r1 0 = 0x02 →
      ∃ s', execute rand (.SubWithCarry r0 r1) s = some s' ∧
        s'.registers.getD 15 0 = 0) ∧
    (∃ s', execute rand (.SubWithCarry r0 r1) s = some s' ∧
      s'.registers.getD 15 0 =
        (if s.registers.getD r1 0 ≤ s.registers.getD r0 0 then 1 else 0) ∧
      (r0 ≠ 15 → s'.registers.getD r0 0 =
        (s.registers.getD r0 0 + 256 - s.registers.getD r1 0) % 256)) ∧
    (∃ s', execute rand (.AddWithCarry r0 r1) s = some s' ∧
      s'.registers.getD 15 0 =
        (if 256 ≤ s.registers.getD r0 0 + s.registers.getD r1 0 then 1 else 0) ∧
      (r0 ≠ 15 → s'.registers.getD r0 0 =
        (s.registers.getD r0 0 + s.registers.getD r1 0) % 256)) := by
  have h0 : r0 < s.registers.length := by omega
  have h1 : r1 < s.registers.length := by omega
  have h15 : 15 < s.registers.length := by omega
  have h15' : (15:Nat) < (s.registers.set r0 ((s.registers.getD r0 0 + s.registers.getD r1 0) % 256)).length := by
    rw [List.length_set]; omega
  refine ⟨?_, ?_, ?_, ?_⟩
  · intro hv0 hv1 hne
    refine ⟨_, execute_add_with_carry rand s r0 r1 h0 h1 h15, ?_, ?_⟩
    · rw [getD_set_ne _ _ _ _ (fun h => hne h.symm),
        getD_set_self _ _ _ h0, hv0, hv1]
    · rw [getD_set_self _ _ _ (by rw [List.length_set]; omega), hv0, hv1]
      norm_num
  · intro hv0 hv1
    refine ⟨_, execute_sub_with_carry rand s r0 r1 h0 h1 h15, ?_⟩
    rw [getD_set_self _ _ _ (by rw [List.length_set]; omega), hv0, hv1]
    norm_num
  · refine ⟨_, execute_sub_with_carry rand s r0 r1 h0 h1 h15, ?_, ?_⟩
    · rw [getD_set_self _ _ _ (by rw [List.length_set]; omega)]
      by_cases h : s.registers.getD r1 0 ≤ s.registers.getD r0 0
      · rw [if_neg (by omega), if_pos h]
      · rw [if_pos (by omega), if_neg h]
    · intro hne
      rw [getD_set_ne _ _ _ _ (fun h => hne h.symm), getD_set_self _ _ _ h0]
  · refine ⟨_, execute_add_with_carry rand s r0 r1 h0 h1 h15, ?_, ?_⟩
    · rw [getD_set_self _ _ _ (by rw [List.length_set]; omega)]
    · intro hne
      rw [getD_set_ne _ _ _ _ (fun h => hne h.symm), getD_set_self _ _ _ h0]

/-- Claim C8 witness: the two concrete register files of the claim. -/
theorem chip8_C8_witness :
    (∃ s', execute 0 (.AddWithCarry 2 7) c8_add_state = some s' ∧
      s'.registers.getD 2 0 = 0x00 ∧ s'.registers.getD 15 0 = 1) ∧
    (∃ s', execute 0 (.SubWithCarry 2 7) c8_sub_state = some s' ∧
      s'.registers.getD 15 0 = 0) := by
  constructor
  · exact (chip8_C8_arith_flags 0 c8_add_state 2 7 (by decide) (by decide)
      (by decide)).1 (by decide) (by decide) (by decide)
  · exact (chip8_C8_arith_flags 0 c8_sub_state 2 7 (by decide) (by decide)
      (by decide)).2.1 (by decide) (by decide)

/-! ## Claim C9: bulk store/load round-trip -/

/-- Claim C9: storing registers 0..=3 at address register A and re-loading
them from A into a zeroed register file reproduces the four values, the
address register reading A+4 after each of the two operations. -/
theorem chip8_C9_store_fill_roundtrip (rand A v0 v1 v2 v3 : Nat) (s : Chip8)
    (hregs : s.registers.length = 16)
    (h0 : s.registers.getD 0 0 = v0) (h1 : s.registers.getD 1 0 = v1)
    (h2 : s.registers.getD 2 0 = v2) (h3 : s.registers.getD 3 0 = v3)
    (hI : s.address_register = A)
    (hmem : A + 4 ≤ s.memory.length)
    (hA : A + 4 < 65536) :
    ∃ s1, execute rand (.StoreRegisters 3) s = some s1 ∧
      s1.address_register = A + 4 ∧
      ∃ s2, execute rand (.FillRegisters 3)
          { s1 with address_register := A, registers := List.replicate 16 0 } = some s2 ∧
        s2.registers.getD 0 0 = v0 ∧ s2.registers.getD 1 0 = v1 ∧
        s2.registers.getD 2 0 = v2 ∧ s2.registers.getD 3 0 = v3 ∧
        s2.address_register = A + 4 := by
  subst hI
  have hlt : (3:Nat) < s.registers.length := by omega
  have htk : (s.registers.take (3 + 1)).length = 4 := by
    rw [List.length_take]; omega
  obtain ⟨m, hw, hmlen, hmget⟩ :=
    write_slice_spec (s.registers.take (3 + 1)) s.memory s.address_register
      (by rw [htk]; omega)
  have hex1 : execute rand (.StoreRegisters 3) s = some { s with
      memory := m
      address_register := (s.address_register + 3 + 1) % 65536 } := by
    simp only [execute, if_pos hlt, hw, Option.bind_eq_bind, Option.some_bind,
      Option.pure_def]
  have hI4 : (s.address_register + 3 + 1) % 65536 = s.address_register + 4 := by omega
  refine ⟨_, hex1, by rw [hI4], ?_⟩
  obtain ⟨vals, hr, hrlen, hrget⟩ :=
    read_range_spec 4 m s.address_register (s.address_register + (3 + 1))
      (by omega) (by rw [hmlen]; omega)
  have hlt2 : (3:Nat) < (List.replicate (16:Nat) (0:Nat)).length := by simp
  have hex2 : execute rand (.FillRegisters 3)
      { s with
        memory := m
        address_register := s.address_register
        registers := List.replicate 16 0 } = some { s with
      memory := m
      registers := vals ++ (List.replicate (16:Nat) (0:Nat)).drop (3 + 1)
      address_register := (s.address_register + 3 + 1) % 65536 } := by
    simp only [execute, if_pos hlt2, hr, Option.bind_eq_bind, Option.some_bind,
      Option.pure_def]
  have key : ∀ k, k < 4 →
      (vals ++ (List.replicate (16:Nat) (0:Nat)).drop (3 + 1))[k]? =
        s.registers[k]? := by
    intro k hk
    rw [List.getElem?_append_left (by rw [hrlen]; omega),
      hrget k (by omega), hmget (s.address_register + k),
      if_pos ⟨by omega, by rw [htk]; omega⟩,
      show s.address_register + k - s.address_register = k from by omega,
      List.getElem?_take_of_lt (by omega)]
  have hval : ∀ k v, k < 4 → s.registers.getD k 0 = v →
      (vals ++ (List.replicate (16:Nat) (0:Nat)).drop (3 + 1)).getD k 0 = v := by
    intro k v hk hv
    refine getD_of_getElem? _ _ _ ?_
    rw [key k hk, getElem?_eq_some_getD _ _ (by omega), hv]
  exact ⟨_, hex2, hval 0 v0 (by omega) h0, hval 1 v1 (by omega) h1,
    hval 2 v2 (by omega) h2, hval 3 v3 (by omega) h3, hI4⟩

/-- Claim C9 witness: values 10, 20, 30, 40 stored at address 8 of a 16-byte
memory. -/
theorem chip8_C9_witness :
    ∃ s1, execute 0 (.StoreRegisters 3) c9_probe_state = some s1 ∧
      s1.address_register = 8 + 4 ∧
      ∃ s2, execute 0 (.FillRegisters 3)
          { s1 with address_register := 8, registers := List.replicate 16 0 } = some s2 ∧
        s2.registers.getD 0 0 = 10 ∧ s2.registers.getD 1 0 = 20 ∧
        s2.registers.getD 2 0 = 30 ∧ s2.registers.getD 3 0 = 40 ∧
        s2.address_register = 8 + 4 :=
  chip8_C9_store_fill_roundtrip 0 8 10 20 30 40 c9_probe_state (by decide)
    (by decide) (by decide) (by decide) (by decide) (by decide) (by decide)
    (by decide)

/-! ## Claim C10: keypad indexing by a full register value -/

/-- Claim C10: the two key-skip instructions index the 16-flag keypad with
the tested register's full value; the access (and with it the step) succeeds
exactly when that value is at most 0x0F, and is a fatal out-of-bounds fault
for any larger value. -/
theorem chip8_C10_key_index_bounds (rand : Nat) (s : Chip8) (r : Nat)
    (hkeys : s.keys.length = 16) (hr : r < s.registers.length) :
    (0x0F < s.registers.getD r 0 →
      execute rand (.SkipIfKeyPressed r) s = none ∧
      execute rand (.SkipIfKeyNotPressed r) s = none) ∧
    (s.registers.getD r 0 ≤ 0x0F →
      execute rand (.SkipIfKeyPressed r) s =
        some (if s.keys.getD (s.registers.getD r 0) false then ip_plus_2 s else s) ∧
      execute rand (.SkipIfKeyNotPressed r) s =
        some (if s.keys.getD (s.registers.getD r 0) false then s else ip_plus_2 s)) := by
  have ha := getElem?_eq_some_getD s.registers r hr
  constructor
  · intro hbig
    have hk : s.keys[s.registers.getD r 0]? = none :=
      List.getElem?_eq_none (by omega)
    constructor <;>
      simp only [execute, ha, hk, Option.bind_eq_bind, Option.some_bind,
        Option.none_bind]
  · intro hsmall
    have hk := getElem?_eq_some_getD_bool s.keys (s.registers.getD r 0) (by omega)
    constructor <;>
      simp only [execute, ha, hk, Option.bind_eq_bind, Option.some_bind,
        Option.pure_def] <;>
      (cases hb : s.keys.getD (s.registers.getD r 0) false <;> simp [hb])

/-- Claim C10 witness: register value 0x20 faults; register value 0x0C with
keypad flag 0xC set takes the skip. -/
theorem chip8_C10_witness :
    (execute 0 (.SkipIfKeyPressed 4) c10_oob_state = none ∧
     execute 0 (.SkipIfKeyNotPressed 4) c10_oob_state = none) ∧
    (execute 0 (.SkipIfKeyPressed 4) c10_ok_state =
      some (if c10_ok_state.keys.getD (c10_ok_state.registers.getD 4 0) false
            then ip_plus_2 c10_ok_state else c10_ok_state) ∧
     execute 0 (.SkipIfKeyNotPressed 4) c10_ok_state =
      some (if c10_ok_state.keys.getD (c10_ok_state.registers.getD 4 0) false
            then c10_ok_state else ip_plus_2 c10_ok_state)) := by
  constructor
  · exact (chip8_C10_key_index_bounds 0 c10_oob_state 4 (by decide)
      (by decide)).1 (by decide)
  · exact (chip8_C10_key_index_bounds 0 c10_ok_state 4 (by decide)
      (by decide)).2 (by decide)

end Chip8Emu
